import Mathlib

set_option autoImplicit false

/-
  Verification of the persistence and backup subsystem of ODS v9.1
  (src/js/database.js and src/js/backup.js), as a shallow embedding.

  Modelling conventions:
  * JavaScript runtime values are embedded as `JVal`; objects are association
    lists in property-insertion order (`Obj`), matching JS enumeration order.
  * Machine time (`Date.now()`) is passed explicitly as an integer parameter;
    each top-level operation samples the clock as the source does.
  * An IndexedDB object store is a list of records in enumeration order plus
    the auto-increment key generator.  Environment failures of the store
    (I/O errors) are outside the model; the in-code failure modes
    (ConstraintError on duplicate keys, DataError on an unusable key path)
    are modelled as error strings carried by `Except`.
  * Promise rejection / thrown exceptions are `Except.error`; the `try/catch`
    wrappers of `exportData`/`importData` turn them into structured
    failure results, exactly as the source does.
  * The theme module's ambient state (the in-memory theme object and the two
    localStorage slots) is threaded through importData as an explicit
    `ThemeEnv`, because the post-import theme reload (backup.js line 181,
    theme.js loadTheme) persists a default theme record into the `themes`
    store whenever the imported data holds no record keyed `default`.
-/

namespace ODS

/-- JSON-like runtime values of the embedded JavaScript fragment. -/
inductive JVal where
  | null
  | bool (b : Bool)
  | num (n : Int)
  | str (s : String)
  | arr (elems : List JVal)
  | obj (fields : List (String × JVal))

/-- A JavaScript object: fields in property-insertion order. -/
abbrev Obj := List (String × JVal)

/-- Property read `o[k]`: the first (unique, in well-formed objects) entry. -/
def getField (o : Obj) (k : String) : Option JVal :=
  (o.find? (fun p => p.fst == k)).map Prod.snd

/-- Property write `o[k] = v`: overwrite in place, or append a new property. -/
def setField (o : Obj) (k : String) (v : JVal) : Obj :=
  if o.any (fun p => p.fst == k) then
    o.map (fun p => if p.fst == k then (k, v) else p)
  else o ++ [(k, v)]

/-- Property removal, as performed by rest-destructuring `const { id, ...rest }`. -/
def removeField (o : Obj) (k : String) : Obj :=
  o.filter (fun p => !(p.fst == k))

/-- Object spread `\x7b ...base, ...patch \x7d`: every top-level property of the
patch replaces the base one. -/
def mergeObj (base patch : Obj) : Obj :=
  patch.foldl (fun acc p => setField acc p.fst p.snd) base

/-- JavaScript truthiness of a value. -/
def truthyV : JVal → Bool
  | JVal.null => false
  | JVal.bool b => b
  | JVal.num n => !(n == 0)
  | JVal.str s => !(s == (""))
  | JVal.arr _ => true
  | JVal.obj _ => true

/-- Truthiness of a property read (an absent property is `undefined`, falsy). -/
def truthy : Option JVal → Bool
  | none => false
  | some v => truthyV v

/-- The test `typeof v === 'object'`: true for null, arrays and plain objects. -/
def typeofIsObject : Option JVal → Bool
  | some JVal.null => true
  | some (JVal.arr _) => true
  | some (JVal.obj _) => true
  | _ => false

/-- Valid IndexedDB keys in the modelled fragment: numbers and strings. -/
def isValidKey : JVal → Bool
  | JVal.num _ => true
  | JVal.str _ => true
  | _ => false

/-- IndexedDB key comparison (numbers with numbers, strings with strings). -/
def keyEq : JVal → JVal → Bool
  | JVal.num a, JVal.num b => a == b
  | JVal.str a, JVal.str b => a == b
  | _, _ => false

/-- JavaScript strict equality `===` restricted to the key fragment: primitive
values compare by value; structured values in the modelled code paths are
distinct references, hence not identical. -/
def strictEq : JVal → JVal → Bool
  | JVal.null, JVal.null => true
  | JVal.bool a, JVal.bool b => a == b
  | JVal.num a, JVal.num b => a == b
  | JVal.str a, JVal.str b => a == b
  | _, _ => false

/-- The test `v === s` for a string constant `s`. -/
def strMatches (v : Option JVal) (s : String) : Bool :=
  match v with
  | some (JVal.str t) => t == s
  | _ => false

/-- String rendering of a key, for interpolated error messages. -/
def keyToString : JVal → String
  | JVal.num n => toString n
  | JVal.str s => s
  | _ => ("")

/-- An object store: records in enumeration order, plus the auto-increment
key generator (which `clear()` does not reset). -/
structure Store where
  records : List Obj
  nextKey : Int := 1

/-- Primary-key generation policy of a store (src/js/database.js STORES). -/
inductive KeyGen where
  | callerKey
  | autoKey

/-- Static store configuration: key path and generation policy. -/
structure StoreCfg where
  keyPath : String
  gen : KeyGen

/-- Whether record `q` sits under key `k` in a store with this configuration. -/
def keyIs (cfg : StoreCfg) (q : Obj) (k : JVal) : Bool :=
  match getField q cfg.keyPath with
  | some v => keyEq v k
  | none => false

/-- Whether some record of the store already occupies key `k`. -/
def hasKey (cfg : StoreCfg) (s : Store) (k : JVal) : Bool :=
  s.records.any (fun r => keyIs cfg r k)

/-- Lines 143-146 of src/js/database.js: `if (!data.timestamp) data.timestamp
= Date.now()` - the presence test is truthiness, not attribute existence. -/
def stampTimestamp (now : Int) (data : Obj) : Obj :=
  if truthy (getField data ("timestamp")) then data
  else setField data ("timestamp") (JVal.num now)

/-- addItem, src/js/database.js lines 136-164, composed with the `store.add`
semantics of the configured key policy: a caller-supplied key is read from the
key path (DataError when absent or unusable, ConstraintError when occupied);
an auto-increment store uses an explicit in-line key when present, otherwise
generates the next sequential key and injects it into the stored record. -/
def addItem (cfg : StoreCfg) (now : Int) (s : Store) (data : Obj) :
    Except String (Store × JVal) :=
  match cfg.gen with
  | KeyGen.callerKey =>
    match getField (stampTimestamp now data) cfg.keyPath with
    | none => Except.error ("DataError")
    | some k =>
      if !(isValidKey k) then Except.error ("DataError")
      else if hasKey cfg s k then Except.error ("ConstraintError")
      else Except.ok ({ s with records := s.records ++ [stampTimestamp now data] }, k)
  | KeyGen.autoKey =>
    match getField (stampTimestamp now data) cfg.keyPath with
    | some k =>
      if !(isValidKey k) then Except.error ("DataError")
      else if hasKey cfg s k then Except.error ("ConstraintError")
      else Except.ok ({ records := s.records ++ [stampTimestamp now data],
                        nextKey := (match k with
                          | JVal.num n => if s.nextKey ≤ n then n + 1 else s.nextKey
                          | _ => s.nextKey) }, k)
    | none =>
      Except.ok
        ({ records := s.records
            ++ [setField (stampTimestamp now data) cfg.keyPath (JVal.num s.nextKey)],
           nextKey := s.nextKey + 1 }, JVal.num s.nextKey)

/-- getItem, src/js/database.js lines 169-195: `store.get(id)`, resolving the
record or `undefined` (an absent record is not an error). -/
def getItem (cfg : StoreCfg) (s : Store) (k : JVal) : Option Obj :=
  s.records.find? (fun r => keyIs cfg r k)

/-- getAllItems, src/js/database.js lines 200-222: all records in store order. -/
def getAllItems (s : Store) : List Obj :=
  s.records

/-- The `store.put` half of updateItem: store a record under its in-line key,
replacing the occupant of that key if any. -/
def putRecord (cfg : StoreCfg) (s : Store) (r : Obj) : Except String Store :=
  match getField r cfg.keyPath with
  | none => Except.error ("DataError")
  | some k =>
    if !(isValidKey k) then Except.error ("DataError")
    else if hasKey cfg s k then
      Except.ok { s with records := s.records.map (fun q => if keyIs cfg q k then r else q) }
    else Except.ok { s with records := s.records ++ [r] }

/-- updateItem, src/js/database.js lines 227-277: reject with the not-found
message when the key is absent; otherwise shallow-merge the patch over the
existing record, stamp `modified` with the current time, force the key-path
field back to the original key when the merge changed it, and put the result. -/
def updateItem (cfg : StoreCfg) (storeName : String) (now : Int) (s : Store)
    (k : JVal) (patch : Obj) : Except String (Store × Obj) :=
  match getItem cfg s k with
  | none =>
    Except.error (("Item with id ") ++ keyToString k ++ (" not found in ") ++ storeName)
  | some existing =>
    let updated := setField (mergeObj existing patch) ("modified") (JVal.num now)
    let updated :=
      if !(cfg.keyPath == ("")) &&
         !(match getField updated cfg.keyPath with
           | some v => strictEq v k
           | none => false) then
        setField updated cfg.keyPath k
      else updated
    match putRecord cfg s updated with
    | Except.ok s2 => Except.ok (s2, updated)
    | Except.error e => Except.error e

/-- clearStore, src/js/database.js lines 309-331: removes every record;
`IDBObjectStore.clear` does not reset the key generator. -/
def clearStore (s : Store) : Store :=
  { s with records := [] }

/-- The logical database: the four stores of the STORES registry. -/
structure DB where
  themes : Store
  operations : Store
  workspaces : Store
  backups : Store

/-- STORES.themes: key path `id`, caller-supplied. -/
def themesCfg : StoreCfg := { keyPath := ("id"), gen := KeyGen.callerKey }

/-- STORES.operations: key path `id`, auto-increment. -/
def operationsCfg : StoreCfg := { keyPath := ("id"), gen := KeyGen.autoKey }

/-- STORES.workspaces: key path `id`, auto-increment. -/
def workspacesCfg : StoreCfg := { keyPath := ("id"), gen := KeyGen.autoKey }

/-- STORES.backups: key path `timestamp`, caller-supplied. -/
def backupsCfg : StoreCfg := { keyPath := ("timestamp"), gen := KeyGen.callerKey }

/-- BACKUP_VERSION, src/js/backup.js line 5. -/
def BACKUP_VERSION : String := ("9.1")

/-- BACKUP_MAGIC, src/js/backup.js line 6. -/
def BACKUP_MAGIC : String := ("ODS_BACKUP_v9")

/-- Stand-in for the environment's `Date.toISOString`: an injective rendering
of the timestamp.  No claim depends on the concrete date format. -/
def isoDateString (ts : Int) : String :=
  toString ts

/-- Export filename, src/js/backup.js lines 48-49 (date formatting abstracted
by `isoDateString`). -/
def exportFilename (now : Int) : String :=
  ("ods-backup-") ++ isoDateString now ++ (".json")

/-- The backup document assembled by exportData, src/js/backup.js lines 25-42.
The `userAgent` metadata value is environmental and modelled by a constant. -/
def buildBackupDoc (now : Int) (db : DB) : Obj :=
  let themes := getAllItems db.themes
  let operations := getAllItems db.operations
  let workspaces := getAllItems db.workspaces
  [ (("magic"), JVal.str BACKUP_MAGIC),
    (("version"), JVal.str BACKUP_VERSION),
    (("timestamp"), JVal.num now),
    (("date"), JVal.str (isoDateString now)),
    (("data"), JVal.obj
      [ (("themes"), JVal.arr (themes.map JVal.obj)),
        (("operations"), JVal.arr (operations.map JVal.obj)),
        (("workspaces"), JVal.arr (workspaces.map JVal.obj)) ]),
    (("metadata"), JVal.obj
      [ (("themesCount"), JVal.num themes.length),
        (("operationsCount"), JVal.num operations.length),
        (("workspacesCount"), JVal.num workspaces.length),
        (("exportedBy"), JVal.str ("ODS v9.1")),
        (("userAgent"), JVal.str ("userAgent")) ]) ]

/-- The summary record appended to `backups` by exportData, src/js/backup.js
lines 55-65.  The serialized JSON length (`size`) is an environment value no
claim depends on; it is modelled as 0. -/
def exportBackupRecord (now : Int) (db : DB) : Obj :=
  [ (("timestamp"), JVal.num now),
    (("version"), JVal.str BACKUP_VERSION),
    (("filename"), JVal.str (exportFilename now)),
    (("size"), JVal.num 0),
    (("counts"), JVal.obj
      [ (("themes"), JVal.num (getAllItems db.themes).length),
        (("operations"), JVal.num (getAllItems db.operations).length),
        (("workspaces"), JVal.num (getAllItems db.workspaces).length) ]) ]

/-- The structured result of exportData. -/
structure ExportOutcome where
  success : Bool
  filename : Option String
  error : Option String
deriving DecidableEq

/-- exportData, src/js/backup.js lines 11-74: gather the three collections,
assemble the document, trigger the download (a pure environment effect), and
append the summary record to `backups`; any thrown error is caught and turned
into a failure result, leaving the database untouched. -/
def exportData (now : Int) (db : DB) : ExportOutcome × DB :=
  match addItem backupsCfg now db.backups (exportBackupRecord now db) with
  | Except.ok (b2, _) =>
    ({ success := true, filename := some (exportFilename now), error := none },
     { db with backups := b2 })
  | Except.error e =>
    ({ success := false, filename := none, error := some e }, db)

/-- validateBackup, src/js/backup.js lines 243-268: `some` of the error text
when invalid, `none` when valid.  Every required-attribute test is a
truthiness test; the data-shape test is `typeof !== 'object'`. -/
def validateBackup (backup : Obj) : Option String :=
  if !(truthy (getField backup ("magic"))) ||
     !(strMatches (getField backup ("magic")) BACKUP_MAGIC) then
    some ("Invalid backup file format")
  else if !(truthy (getField backup ("version"))) then
    some ("Missing version information")
  else if !(truthy (getField backup ("timestamp"))) then
    some ("Missing timestamp")
  else if !(truthy (getField backup ("data"))) then
    some ("Missing data section")
  else if !(typeofIsObject (getField backup ("data"))) then
    some ("Invalid data structure")
  else
    none

/-- Helper for `jsSplitDot`: accumulate the current component in reverse. -/
def splitCharsAux (sep : Char) : List Char → List Char → List (List Char)
  | [], acc => [acc.reverse]
  | c :: rest, acc =>
    if c == sep then acc.reverse :: splitCharsAux sep rest []
    else splitCharsAux sep rest (c :: acc)

/-- JavaScript `s.split('.')`: the dot-separated components, at least one
(the empty string splits to one empty component). -/
def jsSplitDot (s : String) : List String :=
  (splitCharsAux (Char.ofNat 46) s.toList []).map (fun cs => String.mk cs)

/-- isCompatibleVersion, src/js/backup.js lines 273-287: falsy version is
incompatible; otherwise compare the first dot-separated components. -/
def isCompatibleVersion (version : String) : Bool :=
  if version == ("") then false
  else
    let current := jsSplitDot BACKUP_VERSION
    let backup := jsSplitDot version
    current.headD ("") == backup.headD ("")

/-- Property read on an arbitrary value, `v.k`: only plain objects have
user-visible named properties in the modelled fragment. -/
def jsGet (v : JVal) (k : String) : Option JVal :=
  match v with
  | JVal.obj fields => getField fields k
  | _ => none

/-- The two confirmation dialogs of importData, answered by the caller:
the version-mismatch confirm (lines 97-101) and the preview confirm
(lines 108-115). -/
structure ImportChoices where
  versionConfirm : Bool
  importConfirm : Bool

/-- Per-collection imported counts, src/js/backup.js lines 134-138. -/
structure Imported where
  themes : Nat
  operations : Nat
  workspaces : Nat
deriving DecidableEq

/-- The structured result of importData. -/
inductive ImportOutcome where
  | success (imported : Imported)
  | failure (error : String)
deriving DecidableEq

/-- The `imported` object embedded in the import summary record. -/
def importedObj (i : Imported) : Obj :=
  [ (("themes"), JVal.num i.themes),
    (("operations"), JVal.num i.operations),
    (("workspaces"), JVal.num i.workspaces) ]

/-- The index-keyed own enumerable properties of a string, as produced by
spreading or rest-destructuring a string primitive. -/
def strOwnProps (s : String) : Obj :=
  s.toList.enum.map (fun p => (toString p.fst, JVal.str (String.singleton p.snd)))

/-- The index-keyed own enumerable properties of an array (its `length`
property is not enumerable and is not copied). -/
def arrOwnProps (xs : List JVal) : Obj :=
  xs.enum.map (fun p => (toString p.fst, p.snd))

/-- Whether a decimal-digit string denotes a number greater than zero (the
ToNumber coercion of plain decimal strings; exotic numeric formats such as
signs, exponents or whitespace are outside the modelled fragment). -/
def decStrGtZero (s : String) : Bool :=
  (!(s.toList.isEmpty)) && s.toList.all (fun c => c.isDigit)
    && s.toList.any (fun c => !(c == Char.ofNat 48))

/-- The comparison `v > 0` under the ToNumber coercion: numbers compare
directly, booleans coerce to 1/0, null to 0, plain objects render to a
non-numeric string (NaN, comparison false); array values coerce through
their string rendering and lie outside the modelled fragment. -/
def numGtZero : JVal → Bool
  | JVal.num n => 0 < n
  | JVal.bool b => b
  | JVal.str s => decStrGtZero s
  | _ => false

/-- Whether `x.length > 0` holds for a length property read; an absent
property is `undefined`, whose comparison is false. -/
def lengthGtZero : Option JVal → Bool
  | some v => numGtZero v
  | none => false

/-- One iteration of the themes import loop, src/js/backup.js lines 142-145:
`addItem('themes', theme)`.  A null element throws on the `data.timestamp`
read (TypeError); any other non-object element reaches `store.add`, whose
`id` key-path evaluation fails (DataError). -/
def addThemeElem (now : Int) (s : Store) (v : JVal) : Except String (Store × JVal) :=
  match v with
  | JVal.obj fields => addItem themesCfg now s fields
  | JVal.null => Except.error ("TypeError")
  | _ => Except.error ("DataError")

/-- One iteration of the operations/workspaces import loops, src/js/backup.js
lines 150-154 and 160-164: strip the `id` property by rest-destructuring,
then `addItem`.  Rest-destructuring null throws (TypeError); a string or
array element destructures to its index-keyed own properties; other
primitives destructure to the empty object. -/
def addStrippedElem (cfg : StoreCfg) (now : Int) (s : Store) (v : JVal) :
    Except String (Store × JVal) :=
  match v with
  | JVal.obj fields => addItem cfg now s (removeField fields ("id"))
  | JVal.null => Except.error ("TypeError")
  | JVal.str s0 => addItem cfg now s (strOwnProps s0)
  | JVal.arr xs => addItem cfg now s (arrOwnProps xs)
  | _ => addItem cfg now s []

/-- The `for...of` insertion loop over one collection's data section: add each
element in order, counting successes; the first rejection aborts the loop with
the partially mutated store (the thrown error reaches importData's catch). -/
def importLoop (step : Store → JVal → Except String (Store × JVal)) :
    List JVal → Store → Nat → Store × Nat × Option String
  | [], s, cnt => (s, cnt, none)
  | v :: rest, s, cnt =>
    match step s v with
    | Except.ok (s2, _) => importLoop step rest s2 (cnt + 1)
    | Except.error e => (s, cnt, some e)

/-- The guard `backup.data.X && backup.data.X.length > 0` followed by the
`for...of` loop.  An absent or falsy section, or a truthy value whose
`length` comparison fails (numbers and booleans have no length; an empty
string is falsy), contributes zero records.  A nonempty string passes the
guard and is iterated character by character.  A plain object with a
positive numeric length passes the guard but is not iterable, so the loop
header throws (TypeError); objects carrying a `Symbol.iterator` are outside
the modelled fragment. -/
def importSection (step : Store → JVal → Except String (Store × JVal))
    (sectionVal : Option JVal) (s : Store) : Store × Nat × Option String :=
  match sectionVal with
  | none => (s, 0, none)
  | some JVal.null => (s, 0, none)
  | some (JVal.bool _) => (s, 0, none)
  | some (JVal.num _) => (s, 0, none)
  | some (JVal.str s0) =>
    if s0.length > 0 then
      importLoop step (s0.toList.map (fun c => JVal.str (String.singleton c))) s 0
    else (s, 0, none)
  | some (JVal.arr elems) =>
    if elems.length > 0 then importLoop step elems s 0 else (s, 0, none)
  | some (JVal.obj fields) =>
    if lengthGtZero (getField fields ("length")) then (s, 0, some ("TypeError"))
    else (s, 0, none)

/-- Whether building the preview-confirm message succeeds: its template
dereferences `backup.metadata`, which throws a TypeError when that attribute
is absent or null (any other value yields `undefined` counts, no throw). -/
def metadataOk (backup : Obj) : Bool :=
  match getField backup ("metadata") with
  | none => false
  | some JVal.null => false
  | some _ => true

/-- The clear of the three collections, src/js/backup.js lines 127-130. -/
def importClear (db : DB) : DB :=
  { db with themes := clearStore db.themes,
            operations := clearStore db.operations,
            workspaces := clearStore db.workspaces }

/-- The import summary record, src/js/backup.js lines 169-176. -/
def importSummary (backup : Obj) (fileName : String) (nowImport : Int)
    (i : Imported) : Obj :=
  [ (("timestamp"), JVal.num nowImport),
    (("version"), (getField backup ("version")).getD JVal.null),
    (("type"), JVal.str ("import")),
    (("filename"), JVal.str fileName),
    (("imported"), JVal.obj (importedObj i)),
    (("originalTimestamp"), (getField backup ("timestamp")).getD JVal.null) ]

/-- The three insertion loops over the (already cleared) collections followed
by the summary record, src/js/backup.js lines 132-176: the first rejection
aborts with the partially mutated database. -/
def importCollections (backup : Obj) (fileName : String) (nowImport : Int)
    (db : DB) : ImportOutcome × DB :=
  match importSection (addThemeElem nowImport)
      (jsGet ((getField backup ("data")).getD JVal.null) ("themes")) db.themes with
  | (sT, _, some e) => (ImportOutcome.failure e, { db with themes := sT })
  | (sT, cT, none) =>
    match importSection (addStrippedElem operationsCfg nowImport)
        (jsGet ((getField backup ("data")).getD JVal.null) ("operations")) db.operations with
    | (sO, _, some e) => (ImportOutcome.failure e, { db with themes := sT, operations := sO })
    | (sO, cO, none) =>
      match importSection (addStrippedElem workspacesCfg nowImport)
          (jsGet ((getField backup ("data")).getD JVal.null) ("workspaces")) db.workspaces with
      | (sW, _, some e) =>
        (ImportOutcome.failure e, { db with themes := sT, operations := sO, workspaces := sW })
      | (sW, cW, none) =>
        match addItem backupsCfg nowImport db.backups
            (importSummary backup fileName nowImport ⟨cT, cO, cW⟩) with
        | Except.error e =>
          (ImportOutcome.failure e, { db with themes := sT, operations := sO, workspaces := sW })
        | Except.ok (b2, _) =>
          (ImportOutcome.success ⟨cT, cO, cW⟩,
           { themes := sT, operations := sO, workspaces := sW, backups := b2 })

/-- The theme module's ambient state (theme.js): the in-memory `theme`
object (its colors, typography and scale members) and `currentScale`, plus
the two localStorage slots (`ods_theme`, the fallback/migration source, and
`ods_theme_backup`, the mirror written by saveTheme), modelled as parsed
values.  importData re-applies the theme after importing (backup.js line
181), and that step can write to the themes store, so this state is threaded
through the import explicitly. -/
structure ThemeEnv where
  colors : JVal
  typography : JVal
  scale : JVal
  currentScale : JVal
  fallback : Option Obj
  backupSlot : Option Obj

/-- Spreading a value into an object literal: objects contribute their
fields, strings and arrays their index-keyed own enumerable properties,
other primitives (and null) nothing. -/
def spreadProps : JVal → Obj
  | JVal.obj fields => fields
  | JVal.str s => strOwnProps s
  | JVal.arr xs => arrOwnProps xs
  | _ => []

/-- The record saveTheme persists (theme.js): id `default`, the in-memory
colors/typography, the scale spread with `current` overridden, the current
time, and the version string. -/
def themeData (env : ThemeEnv) (now : Int) : Obj :=
  [ (("id"), JVal.str ("default")),
    (("colors"), env.colors),
    (("typography"), env.typography),
    (("scale"), JVal.obj (setField (spreadProps env.scale) ("current") env.currentScale)),
    (("timestamp"), JVal.num now),
    (("version"), JVal.str ("9.1")) ]

/-- The record saveTheme writes to the `ods_theme` localStorage slot in its
catch branch (same shape, without the version attribute). -/
def themeDataLocal (env : ThemeEnv) (now : Int) : Obj :=
  [ (("id"), JVal.str ("default")),
    (("colors"), env.colors),
    (("typography"), env.typography),
    (("scale"), JVal.obj (setField (spreadProps env.scale) ("current") env.currentScale)),
    (("timestamp"), JVal.num now) ]

/-- The read `scale.current || 1` performed when a saved theme is applied. -/
def scaleCurrentOr1 (v : JVal) : JVal :=
  match jsGet v ("current") with
  | some w => if truthyV w then w else JVal.num 1
  | none => JVal.num 1

/-- Applying a saved theme record to the in-memory state (theme.js loadTheme):
each member is copied only when truthy; a truthy scale also resets
`currentScale` from its `current` attribute (defaulting to 1). -/
def applyFromRecord (r : Obj) (env : ThemeEnv) : ThemeEnv :=
  let env1 := if truthy (getField r ("colors"))
    then { env with colors := (getField r ("colors")).getD JVal.null } else env
  let env2 := if truthy (getField r ("typography"))
    then { env1 with typography := (getField r ("typography")).getD JVal.null } else env1
  match getField r ("scale") with
  | some sc =>
    if truthyV sc then { env2 with scale := sc, currentScale := scaleCurrentOr1 sc }
    else env2
  | none => env2

/-- saveTheme (theme.js): build the theme record, then update it under key
`default` when one exists, else add it, and mirror the record into the
`ods_theme_backup` slot; a store failure falls back to writing the
`ods_theme` slot instead (unreachable on the modelled paths, where the
update hits an existing key and the add a fresh one). -/
def saveTheme (now : Int) (env : ThemeEnv) (s : Store) : Store × ThemeEnv :=
  match getItem themesCfg s (JVal.str ("default")) with
  | some _ =>
    match updateItem themesCfg ("themes") now s (JVal.str ("default")) (themeData env now) with
    | Except.ok (s2, _) => (s2, { env with backupSlot := some (themeData env now) })
    | Except.error _ => (s, { env with fallback := some (themeDataLocal env now) })
  | none =>
    match addItem themesCfg now s (themeData env now) with
    | Except.ok (s2, _) => (s2, { env with backupSlot := some (themeData env now) })
    | Except.error _ => (s, { env with fallback := some (themeDataLocal env now) })

/-- loadTheme (theme.js): on a hit of key `default` the saved record is
applied to memory and nothing is written; on a miss, a record in the
`ods_theme` fallback slot is applied, persisted via saveTheme and the slot
cleared; on a total miss, saveTheme persists the in-memory defaults.  The
slot holds the parsed JSON of a previously saved theme record (an object);
corrupt slot contents, which divert to the catch branch, are outside the
modelled fragment. -/
def loadTheme (now : Int) (env : ThemeEnv) (s : Store) : Store × ThemeEnv :=
  match getItem themesCfg s (JVal.str ("default")) with
  | some saved => (s, applyFromRecord saved env)
  | none =>
    match env.fallback with
    | some fb =>
      match saveTheme now (applyFromRecord fb env) s with
      | (s2, env2) => (s2, { env2 with fallback := none })
    | none => saveTheme now env s

/-- The destructive phase of importData, src/js/backup.js lines 121-191,
entered after both confirms: the pre-import snapshot (whose result the source
never inspects), the clear of the three collections, the insertion loops and
the summary record; on success the theme is then reloaded and re-applied
(backup.js lines 180-185) - `loadTheme` persists a default theme record when
the imported data left no id `default` record, while `applyTheme`/`setScale`
only touch the DOM. -/
def importPhase (backup : Obj) (fileName : String)
    (nowSnapshot nowImport : Int) (env : ThemeEnv) (db : DB) :
    ImportOutcome × DB × ThemeEnv :=
  match importCollections backup fileName nowImport
      (importClear ((exportData nowSnapshot db).2)) with
  | (ImportOutcome.failure e, db2) => (ImportOutcome.failure e, db2, env)
  | (ImportOutcome.success i, db2) =>
    match loadTheme nowImport env db2.themes with
    | (sT2, env2) => (ImportOutcome.success i, { db2 with themes := sT2 }, env2)

/-- importData after validation and the version gate, src/js/backup.js lines
107-191: the preview confirm (a TypeError when `backup.metadata` is absent or
null, a cancellation when declined), then the destructive phase. -/
def importRest (backup : Obj) (fileName : String) (importConfirm : Bool)
    (nowSnapshot nowImport : Int) (env : ThemeEnv) (db : DB) :
    ImportOutcome × DB × ThemeEnv :=
  if !(metadataOk backup) then (ImportOutcome.failure ("TypeError"), db, env)
  else if !importConfirm then (ImportOutcome.failure ("Import cancelled by user"), db, env)
  else importPhase backup fileName nowSnapshot nowImport env db

/-- importData after structural validation, src/js/backup.js lines 96-105:
the version-compatibility gate.  A truthy non-string version would make
`version.split` throw (TypeError). -/
def importStage2 (backup : Obj) (fileName : String) (choices : ImportChoices)
    (nowSnapshot nowImport : Int) (env : ThemeEnv) (db : DB) :
    ImportOutcome × DB × ThemeEnv :=
  match getField backup ("version") with
  | some (JVal.str v) =>
    if !(isCompatibleVersion v) && !(choices.versionConfirm) then
      (ImportOutcome.failure ("Import cancelled by user"), db, env)
    else
      importRest backup fileName choices.importConfirm nowSnapshot nowImport env db
  | _ => (ImportOutcome.failure ("TypeError"), db, env)

/-- importData, src/js/backup.js lines 79-197, applied to the parsed document
(file reading and JSON parsing are environment steps preceding it): structural
validation, then the version gate and the rest of the import.  Thrown errors
are caught and become failure results carrying the thrown message.  The
result is the structured outcome together with the final database and theme
state. -/
def importData (backup : Obj) (fileName : String) (choices : ImportChoices)
    (nowSnapshot nowImport : Int) (env : ThemeEnv) (db : DB) :
    ImportOutcome × DB × ThemeEnv :=
  match validateBackup backup with
  | some e => (ImportOutcome.failure e, db, env)
  | none => importStage2 backup fileName choices nowSnapshot nowImport env db

/-- Well-formedness of a stored record for a caller-supplied-key store: the
key-path field is present and holds a usable key. -/
def keyPresentValid (cfg : StoreCfg) (r : Obj) : Bool :=
  match getField r cfg.keyPath with
  | some k => isValidKey k
  | none => false

/-- Whether two records occupy the same key of the configured store. -/
def sameKeyB (cfg : StoreCfg) (r q : Obj) : Bool :=
  match getField r cfg.keyPath with
  | some k => keyIs cfg q k
  | none => false

/-- Whether a record list occupies pairwise distinct keys (the store
invariant of a keyed object store). -/
def distinctKeysB (cfg : StoreCfg) : List Obj → Bool
  | [] => true
  | r :: rest => rest.all (fun q => !(sameKeyB cfg r q)) && distinctKeysB cfg rest

/-- Whether an object's field names are pairwise distinct (every object built
by the JavaScript runtime satisfies this). -/
def distinctNames : Obj → Bool
  | [] => true
  | p :: rest => rest.all (fun q => !(q.fst == p.fst)) && distinctNames rest

/-- The operations/workspaces records as re-inserted by import: `id` stripped,
then the store injects consecutive generated keys starting at the surviving
generator value. -/
def assignIds (nk : Int) : List Obj → List Obj
  | [] => []
  | r :: rest => setField (removeField r ("id")) ("id") (JVal.num nk) :: assignIds (nk + 1) rest

/-- An empty store with a fresh key generator. -/
def emptyStore : Store := { records := [], nextKey := 1 }

/-- A concrete theme-module state: default-like in-memory members and empty
localStorage slots. -/
def themeEnv0 : ThemeEnv :=
  { colors := JVal.obj [ (("background"), JVal.str ("#000000")),
      (("text"), JVal.str ("#00FF00")), (("ui"), JVal.str ("#00FF00")) ],
    typography := JVal.obj [ (("fontFamily"), JVal.str ("Share Tech Mono")),
      (("baseFontSize"), JVal.num 16) ],
    scale := JVal.obj [ (("current"), JVal.num 1) ],
    currentScale := JVal.num 1,
    fallback := none,
    backupSlot := none }

/-- Concrete failing input for the safety-snapshot claim: the `backups` store
already holds a record keyed by timestamp 1000, so the pre-import export
performed at clock value 1000 fails with ConstraintError; themes and
operations hold data that the import then destroys. -/
def c1db : DB :=
  { themes := { records := [[(("id"), JVal.str ("default")), (("timestamp"), JVal.num 5)]], nextKey := 1 },
    operations := { records :=
      [[(("type"), JVal.str ("deploy")), (("timestamp"), JVal.num 6), (("id"), JVal.num 1)]], nextKey := 2 },
    workspaces := { records := [], nextKey := 1 },
    backups := { records := [[(("timestamp"), JVal.num 1000)]], nextKey := 1 } }

/-- A structurally valid, version-compatible backup document with empty data. -/
def c1doc : Obj :=
  [ (("magic"), JVal.str BACKUP_MAGIC), (("version"), JVal.str ("9.1")),
    (("timestamp"), JVal.num 999), (("data"), JVal.obj []), (("metadata"), JVal.obj []) ]

/-- Concrete database whose single theme record carries the legal but falsy
timestamp 0 (reachable via `update` with a patch setting `timestamp` to 0). -/
def c2db : DB :=
  { themes := { records := [[(("id"), JVal.str ("t1")), (("timestamp"), JVal.num 0)]], nextKey := 1 },
    operations := { records := [], nextKey := 1 },
    workspaces := { records := [], nextKey := 1 },
    backups := { records := [], nextKey := 1 } }

/-- Concrete well-stamped database for the C2 witness; its themes collection
holds the default theme record, as every initialized installation does. -/
def c2wdb : DB :=
  { themes := { records := [[(("id"), JVal.str ("default")), (("timestamp"), JVal.num 3)]], nextKey := 1 },
    operations := { records :=
      [[(("type"), JVal.str ("x")), (("timestamp"), JVal.num 4), (("id"), JVal.num 7)]], nextKey := 8 },
    workspaces := { records := [], nextKey := 1 },
    backups := { records := [], nextKey := 1 } }

/-- Concrete themes record for the C5 witness. -/
def c5rec : Obj :=
  [(("id"), JVal.str ("a")), (("color"), JVal.str ("red")), (("timestamp"), JVal.num 1)]

/-- Store holding that record. -/
def c5store : Store := { records := [c5rec], nextKey := 1 }

/-- A patch that changes `color` and attempts to change the primary key. -/
def c5patch : Obj := [(("color"), JVal.str ("blue")), (("id"), JVal.str ("HACK"))]

/-- A document whose timestamp attribute is present but 0. -/
def c9doc : Obj :=
  [ (("magic"), JVal.str BACKUP_MAGIC), (("version"), JVal.str ("9.1")),
    (("timestamp"), JVal.num 0), (("data"), JVal.obj []) ]

/-- A document whose data attribute is a JSON array. -/
def c10doc : Obj :=
  [ (("magic"), JVal.str BACKUP_MAGIC), (("version"), JVal.str ("9.1")),
    (("timestamp"), JVal.num 4), (("data"), JVal.arr [JVal.num 1]) ]

/-- A structurally valid document with major version 8. -/
def c4doc8 : Obj :=
  [ (("magic"), JVal.str BACKUP_MAGIC), (("version"), JVal.str ("8.2")),
    (("timestamp"), JVal.num 4), (("data"), JVal.obj []), (("metadata"), JVal.obj []) ]

/-- A structurally valid document with major version 9, minor version 0. -/
def c4doc9 : Obj :=
  [ (("magic"), JVal.str BACKUP_MAGIC), (("version"), JVal.str ("9.0")),
    (("timestamp"), JVal.num 4), (("data"), JVal.obj []), (("metadata"), JVal.obj []) ]

/-- Concrete input record holding the legal but falsy timestamp 0. -/
def c7rec : Obj := [(("type"), JVal.str ("t")), (("timestamp"), JVal.num 0)]

/-- What the store holds after adding `c7rec` to `operations` at clock 7. -/
def c7stored : Obj := [(("type"), JVal.str ("t")), (("timestamp"), JVal.num 7), (("id"), JVal.num 1)]

/-- The operations store after that add. -/
def c7store : Store := { records := [c7stored], nextKey := 2 }

end ODS

namespace ODS

theorem getField_cons_hit (p : String × JVal) (rest : Obj) (f : String)
    (h : (p.fst == f) = true) :
    getField (p :: rest) f = some p.snd := by
  unfold getField
  simp [List.find?_cons, h]

theorem getField_cons_miss (p : String × JVal) (rest : Obj) (f : String)
    (h : (p.fst == f) = false) :
    getField (p :: rest) f = getField rest f := by
  unfold getField
  simp [List.find?_cons, h]

theorem getField_nil (f : String) : getField ([] : Obj) f = none := rfl

theorem getField_map_set (o : Obj) (k : String) (v : JVal)
    (h : o.any (fun p => p.fst == k) = true) :
    getField (o.map (fun p => if p.fst == k then (k, v) else p)) k = some v := by
  induction o with
  | nil => simp at h
  | cons p rest ih =>
    rw [List.any_cons] at h
    by_cases hp : (p.fst == k) = true
    · rw [List.map_cons, if_pos hp]
      exact getField_cons_hit (k, v) _ k (by simp)
    · have hp' : (p.fst == k) = false := Bool.eq_false_iff.mpr hp
      rw [hp', Bool.false_or] at h
      rw [List.map_cons, if_neg hp]
      rw [getField_cons_miss _ _ _ hp']
      exact ih h

theorem getField_append (o o2 : Obj) (f : String) :
    getField (o ++ o2) f = ((getField o f).or (getField o2 f)) := by
  unfold getField
  rw [List.find?_append]
  cases o.find? (fun p => p.fst == f) <;> simp

theorem find?_eq_none_of_any_false (o : Obj) (f : String)
    (h : o.any (fun p => p.fst == f) = false) :
    o.find? (fun p => p.fst == f) = none := by
  rw [List.find?_eq_none]
  intro x hx hpx
  have : o.any (fun p => p.fst == f) = true := List.any_eq_true.mpr ⟨x, hx, hpx⟩
  rw [h] at this
  exact Bool.false_ne_true this

theorem getField_none_of_any_false (o : Obj) (f : String)
    (h : o.any (fun p => p.fst == f) = false) :
    getField o f = none := by
  unfold getField
  rw [find?_eq_none_of_any_false o f h]
  rfl

theorem getField_setField_self (o : Obj) (k : String) (v : JVal) :
    getField (setField o k v) k = some v := by
  unfold setField
  by_cases h : o.any (fun p => p.fst == k) = true
  · rw [if_pos h]
    exact getField_map_set o k v h
  · rw [if_neg h]
    have h' := Bool.eq_false_iff.mpr h
    rw [getField_append, getField_none_of_any_false o k h']
    simp [getField_cons_hit (k, v) [] k (by simp)]

theorem getField_map_set_ne (o : Obj) (k f : String) (v : JVal) (hfk : f ≠ k) :
    getField (o.map (fun p => if p.fst == k then (k, v) else p)) f = getField o f := by
  induction o with
  | nil => rfl
  | cons p rest ih =>
    by_cases hp : (p.fst == k) = true
    · rw [List.map_cons, if_pos hp]
      have hkf : (k == f) = false := beq_eq_false_iff_ne.mpr (fun hh => hfk hh.symm)
      have hpf : (p.fst == f) = false := by
        rw [eq_of_beq hp]
        exact hkf
      rw [getField_cons_miss (k, v) _ f hkf, getField_cons_miss p _ f hpf]
      exact ih
    · rw [List.map_cons, if_neg hp]
      by_cases hpf : (p.fst == f) = true
      · rw [getField_cons_hit p _ f hpf, getField_cons_hit p _ f hpf]
      · have hpf' := Bool.eq_false_iff.mpr hpf
        rw [getField_cons_miss p _ f hpf', getField_cons_miss p _ f hpf']
        exact ih

theorem getField_setField_ne (o : Obj) (k f : String) (v : JVal) (hfk : f ≠ k) :
    getField (setField o k v) f = getField o f := by
  unfold setField
  by_cases h : o.any (fun p => p.fst == k) = true
  · rw [if_pos h]
    exact getField_map_set_ne o k f v hfk
  · rw [if_neg h]
    rw [getField_append]
    have hkf : (k == f) = false := beq_eq_false_iff_ne.mpr (fun hh => hfk hh.symm)
    rw [getField_cons_miss (k, v) [] f hkf, getField_nil]
    cases getField o f <;> rfl

theorem getField_removeField_self (o : Obj) (k : String) :
    getField (removeField o k) k = none := by
  apply getField_none_of_any_false
  unfold removeField
  rw [Bool.eq_false_iff]
  intro h
  rcases List.any_eq_true.mp h with ⟨x, hx, hpx⟩
  rcases List.mem_filter.mp hx with ⟨hmem, hkeep⟩
  rw [hpx] at hkeep
  exact Bool.false_ne_true hkeep

theorem getField_removeField_ne (o : Obj) (k f : String) (hfk : f ≠ k) :
    getField (removeField o k) f = getField o f := by
  unfold removeField
  induction o with
  | nil => rfl
  | cons p rest ih =>
    by_cases hp : (p.fst == k) = true
    · have hpf : (p.fst == f) = false := by
        rw [eq_of_beq hp]
        exact beq_eq_false_iff_ne.mpr (fun hh => hfk hh.symm)
      rw [List.filter_cons_of_neg (by simp [hp]), getField_cons_miss p rest f hpf]
      exact ih
    · have hp' := Bool.eq_false_iff.mpr hp
      rw [List.filter_cons_of_pos (by simp [hp'])]
      by_cases hpf : (p.fst == f) = true
      · rw [getField_cons_hit p _ f hpf, getField_cons_hit p _ f hpf]
      · have hpf' := Bool.eq_false_iff.mpr hpf
        rw [getField_cons_miss p _ f hpf', getField_cons_miss p _ f hpf']
        exact ih

theorem removeField_filter_map_set (o : Obj) (k : String) (v : JVal) :
    removeField (o.map (fun p => if p.fst == k then (k, v) else p)) k = removeField o k := by
  unfold removeField
  induction o with
  | nil => rfl
  | cons p rest ih =>
    rw [List.map_cons]
    by_cases hp : (p.fst == k) = true
    · rw [if_pos hp, List.filter_cons_of_neg (by simp), List.filter_cons_of_neg (by simp [hp])]
      exact ih
    · have hp' := Bool.eq_false_iff.mpr hp
      rw [if_neg hp, List.filter_cons_of_pos (by simp [hp']), List.filter_cons_of_pos (by simp [hp'])]
      rw [ih]

theorem removeField_setField_self (o : Obj) (k : String) (v : JVal) :
    removeField (setField o k v) k = removeField o k := by
  unfold setField
  by_cases h : o.any (fun p => p.fst == k) = true
  · rw [if_pos h]
    exact removeField_filter_map_set o k v
  · rw [if_neg h]
    unfold removeField
    rw [List.filter_append]
    rw [List.filter_cons_of_neg (by simp)]
    simp

end ODS

namespace ODS

theorem strMatches_truthy (v : Option JVal) (h : strMatches v BACKUP_MAGIC = true) :
    truthy v = true := by
  cases v with
  | none => simp [strMatches] at h
  | some w =>
    cases w with
    | str t =>
      have ht : t = BACKUP_MAGIC := by simpa [strMatches] using h
      subst ht
      decide
    | null => simp [strMatches] at h
    | bool b => simp [strMatches] at h
    | num n => simp [strMatches] at h
    | arr xs => simp [strMatches] at h
    | obj fs => simp [strMatches] at h

/-- Claim C3: importing any parsed document whose magic marker is absent or
differs from the constant ODS_BACKUP_v9 fails with the invalid-magic error
text and returns the database (all four collections) unmodified. -/
theorem c3_invalid_magic (doc : Obj) (fn : String) (ch : ImportChoices)
    (nS nI : Int) (env : ThemeEnv) (db : DB)
    (h : strMatches (getField doc ("magic")) BACKUP_MAGIC = false) :
    importData doc fn ch nS nI env db
      = (ImportOutcome.failure ("Invalid backup file format"), db, env) := by
  unfold importData validateBackup
  rw [h]
  simp

/-- Witness for C3 at a concrete wrong-magic document and database. -/
theorem c3_invalid_magic_witness :
    strMatches (getField ([(("magic"), JVal.str ("WRONG"))]) ("magic")) BACKUP_MAGIC = false ∧
    importData ([(("magic"), JVal.str ("WRONG"))]) ("f.json") ⟨true, true⟩ 1 2 themeEnv0 c1db
      = (ImportOutcome.failure ("Invalid backup file format"), c1db, themeEnv0) :=
  ⟨rfl, c3_invalid_magic ([(("magic"), JVal.str ("WRONG"))]) ("f.json") ⟨true, true⟩ 1 2
    themeEnv0 c1db rfl⟩

/-- Claim C9: a parsed document with correct magic, truthy version, and
timestamp attribute present but equal to 0 fails structural validation with
the missing-timestamp error, and import aborts without mutating any
collection - presence is tested by truthiness, not attribute existence. -/
theorem c9_zero_timestamp (doc : Obj) (fn : String) (ch : ImportChoices)
    (nS nI : Int) (env : ThemeEnv) (db : DB)
    (hmagic : strMatches (getField doc ("magic")) BACKUP_MAGIC = true)
    (hver : truthy (getField doc ("version")) = true)
    (hts : getField doc ("timestamp") = some (JVal.num 0)) :
    validateBackup doc = some ("Missing timestamp") ∧
    importData doc fn ch nS nI env db
      = (ImportOutcome.failure ("Missing timestamp"), db, env) := by
  have hm := strMatches_truthy _ hmagic
  have hv : validateBackup doc = some ("Missing timestamp") := by
    unfold validateBackup
    rw [hmagic, hm, hver, hts]
    simp [truthy, truthyV]
  refine ⟨hv, ?_⟩
  unfold importData
  rw [hv]

/-- Witness for C9 at a concrete zero-timestamp document. -/
theorem c9_zero_timestamp_witness :
    strMatches (getField c9doc ("magic")) BACKUP_MAGIC = true ∧
    truthy (getField c9doc ("version")) = true ∧
    getField c9doc ("timestamp") = some (JVal.num 0) ∧
    validateBackup c9doc = some ("Missing timestamp") ∧
    importData c9doc ("f.json") ⟨true, true⟩ 1 2 themeEnv0 c1db
      = (ImportOutcome.failure ("Missing timestamp"), c1db, themeEnv0) := by
  refine ⟨rfl, rfl, rfl, ?_, ?_⟩
  · exact (c9_zero_timestamp c9doc ("f.json") ⟨true, true⟩ 1 2 themeEnv0 c1db rfl rfl rfl).1
  · exact (c9_zero_timestamp c9doc ("f.json") ⟨true, true⟩ 1 2 themeEnv0 c1db rfl rfl rfl).2

/-- Claim C10: a parsed document whose data attribute is a JSON array (with
correct magic and truthy version and timestamp) passes structural validation
- the shape check rejects only non-object typeof values and arrays are of
object type - so import proceeds past validation to the version stage. -/
theorem c10_array_data (doc : Obj) (xs : List JVal) (fn : String)
    (ch : ImportChoices) (nS nI : Int) (env : ThemeEnv) (db : DB)
    (hmagic : strMatches (getField doc ("magic")) BACKUP_MAGIC = true)
    (hver : truthy (getField doc ("version")) = true)
    (hts : truthy (getField doc ("timestamp")) = true)
    (hdata : getField doc ("data") = some (JVal.arr xs)) :
    validateBackup doc = none ∧
    importData doc fn ch nS nI env db = importStage2 doc fn ch nS nI env db := by
  have hm := strMatches_truthy _ hmagic
  have hv : validateBackup doc = none := by
    unfold validateBackup
    rw [hmagic, hm, hver, hts, hdata]
    simp [truthy, truthyV, typeofIsObject]
  refine ⟨hv, ?_⟩
  unfold importData
  rw [hv]

/-- Witness for C10 at a concrete array-data document. -/
theorem c10_array_data_witness :
    strMatches (getField c10doc ("magic")) BACKUP_MAGIC = true ∧
    truthy (getField c10doc ("version")) = true ∧
    truthy (getField c10doc ("timestamp")) = true ∧
    getField c10doc ("data") = some (JVal.arr [JVal.num 1]) ∧
    validateBackup c10doc = none ∧
    importData c10doc ("f.json") ⟨true, true⟩ 1 2 themeEnv0 c1db
      = importStage2 c10doc ("f.json") ⟨true, true⟩ 1 2 themeEnv0 c1db := by
  refine ⟨rfl, rfl, rfl, rfl, ?_, ?_⟩
  · exact (c10_array_data c10doc [JVal.num 1] ("f.json") ⟨true, true⟩ 1 2 themeEnv0 c1db
      rfl rfl rfl rfl).1
  · exact (c10_array_data c10doc [JVal.num 1] ("f.json") ⟨true, true⟩ 1 2 themeEnv0 c1db
      rfl rfl rfl rfl).2

/-- Claim C6: updating a key that holds no record always rejects with the
not-found message and never produces a successor store (no record is
created; the collection is untouched by a rejected update). -/
theorem c6_update_not_found (cfg : StoreCfg) (name : String) (now : Int)
    (s : Store) (k : JVal) (patch : Obj)
    (h : getItem cfg s k = none) :
    updateItem cfg name now s k patch
      = Except.error (("Item with id ") ++ keyToString k ++ (" not found in ") ++ name) ∧
    ∀ s2 r, updateItem cfg name now s k patch ≠ Except.ok (s2, r) := by
  have he : updateItem cfg name now s k patch
      = Except.error (("Item with id ") ++ keyToString k ++ (" not found in ") ++ name) := by
    unfold updateItem
    rw [h]
  refine ⟨he, ?_⟩
  intro s2 r hok
  rw [he] at hok
  exact Except.noConfusion hok

/-- Witness for C6 at a concrete store lacking the key. -/
theorem c6_update_not_found_witness :
    getItem themesCfg emptyStore (JVal.str ("missing")) = none ∧
    updateItem themesCfg ("themes") 5 emptyStore (JVal.str ("missing")) ([])
      = Except.error (("Item with id ") ++ keyToString (JVal.str ("missing"))
          ++ (" not found in ") ++ ("themes")) := by
  refine ⟨rfl, ?_⟩
  exact (c6_update_not_found themesCfg ("themes") 5 emptyStore (JVal.str ("missing")) ([]) rfl).1

/-- Claim C1, evaluated at a concrete failing input: with a backups store
already occupying timestamp key 1000, the pre-import safety snapshot taken at
clock 1000 fails, yet importData does not abort - it reports success, the
nonempty operations collection has been cleared, and the themes collection
ends up holding only the freshly persisted default theme record written by
the post-import theme reload, contradicting the specified
abort-before-clear behaviour. -/
theorem c1_failed_snapshot_not_aborted :
    (exportData 1000 c1db).1.success = false ∧
    (importData c1doc ("backup.json") ⟨true, true⟩ 1000 2000 themeEnv0 c1db).1
      = ImportOutcome.success ⟨0, 0, 0⟩ ∧
    ((importData c1doc ("backup.json") ⟨true, true⟩ 1000 2000 themeEnv0 c1db).2.1).operations.records
      = [] ∧
    c1db.operations.records ≠ [] ∧
    ((importData c1doc ("backup.json") ⟨true, true⟩ 1000 2000 themeEnv0 c1db).2.1).themes.records
      = [themeData themeEnv0 2000] := by
  refine ⟨rfl, rfl, rfl, ?_, rfl⟩
  intro hcontra
  have := congrArg List.length hcontra
  simp [c1db] at this

/-- Counterexample to claim C2 as stated: a database whose single theme record
carries timestamp 0 round-trips to a record with a fresh timestamp - the
primary key `id` (not a regenerated key for themes) is preserved, but the
non-key field `timestamp` differs after import, so the collections are not
restored to field-equal content. -/
theorem c2_roundtrip_counterexample :
    (exportData 1000 c2db).1.success = true ∧
    (importData (buildBackupDoc 1000 c2db) ("f.json") ⟨true, true⟩ 1001 1002 themeEnv0
        ((exportData 1000 c2db).2)).1 = ImportOutcome.success ⟨1, 0, 0⟩ ∧
    getField (c2db.themes.records.headD ([])) ("timestamp") = some (JVal.num 0) ∧
    getField ((((importData (buildBackupDoc 1000 c2db) ("f.json") ⟨true, true⟩ 1001 1002 themeEnv0
        ((exportData 1000 c2db).2)).2.1).themes.records).headD ([])) ("id")
      = getField (c2db.themes.records.headD ([])) ("id") ∧
    getField ((((importData (buildBackupDoc 1000 c2db) ("f.json") ⟨true, true⟩ 1001 1002 themeEnv0
        ((exportData 1000 c2db).2)).2.1).themes.records).headD ([])) ("timestamp")
      = some (JVal.num 1002) ∧
    (some (JVal.num 1002) : Option JVal) ≠ some (JVal.num 0) := by
  refine ⟨rfl, rfl, rfl, rfl, rfl, ?_⟩
  intro h
  injection h with h1
  injection h1 with h2
  exact absurd h2 (by decide)

/-- Counterexample to claim C7 as stated: adding to `operations` a record
whose timestamp is present but 0 re-stamps the timestamp (the source tests
truthiness, not absence) and the retrieved record additionally carries the
injected generated key, so it is not the input plus only an auto-populated
timestamp. -/
theorem c7_add_get_counterexample :
    addItem operationsCfg 7 emptyStore c7rec = Except.ok (c7store, JVal.num 1) ∧
    getItem operationsCfg c7store (JVal.num 1) = some c7stored ∧
    getField c7rec ("timestamp") = some (JVal.num 0) ∧
    getField c7stored ("timestamp") = some (JVal.num 7) ∧
    getField c7rec ("id") = none ∧
    getField c7stored ("id") = some (JVal.num 1) ∧
    (some (JVal.num 7) : Option JVal) ≠ some (JVal.num 0) := by
  refine ⟨rfl, rfl, rfl, rfl, rfl, rfl, ?_⟩
  intro h
  injection h with h1
  injection h1 with h2
  exact absurd h2 (by decide)

end ODS

namespace ODS

theorem isCompatibleVersion_iff (v : String) :
    isCompatibleVersion v = true ↔
      (v ≠ ("") ∧ (jsSplitDot v).headD ("") = (jsSplitDot BACKUP_VERSION).headD ("")) := by
  unfold isCompatibleVersion
  by_cases hv : v = ("")
  · subst hv
    simp
  · rw [if_neg (by simp [hv])]
    constructor
    · intro h
      exact ⟨hv, (eq_of_beq h).symm⟩
    · intro h
      exact beq_iff_eq.mpr h.2.symm

theorem c4_aux_incompatible (v : String)
    (h : (jsSplitDot v).headD ("") ≠ ("9")) : isCompatibleVersion v = false := by
  rw [Bool.eq_false_iff]
  intro hc
  have h9 : (jsSplitDot BACKUP_VERSION).headD ("") = ("9") := by decide
  exact h (((isCompatibleVersion_iff v).mp hc).2.trans h9)

theorem c4_aux_compatible (v : String) (hv : v ≠ (""))
    (h : (jsSplitDot v).headD ("") = ("9")) : isCompatibleVersion v = true := by
  apply (isCompatibleVersion_iff v).mpr
  refine ⟨hv, ?_⟩
  rw [h]
  decide

/-- Claim C4: import compares only the major version component (the substring
before the first dot) of the document against the current major component; a
document whose major differs is cancelled when the version confirm is
declined and proceeds to the rest of the import when it is accepted, while a
document whose major matches (e.g. 9.0 against current 9.1) proceeds
identically whatever the version-confirm answer - that confirmation is never
consulted. -/
theorem c4_version_gate :
    (∀ v : String, isCompatibleVersion v = true ↔
        (v ≠ ("") ∧ (jsSplitDot v).headD ("") = (jsSplitDot BACKUP_VERSION).headD (""))) ∧
    (∀ (doc : Obj) (fn : String) (ci : Bool) (nS nI : Int) (env : ThemeEnv) (db : DB) (v : String),
        validateBackup doc = none →
        getField doc ("version") = some (JVal.str v) →
        (jsSplitDot v).headD ("") ≠ ("9") →
        importData doc fn ⟨false, ci⟩ nS nI env db
          = (ImportOutcome.failure ("Import cancelled by user"), db, env)) ∧
    (∀ (doc : Obj) (fn : String) (ci : Bool) (nS nI : Int) (env : ThemeEnv) (db : DB) (v : String),
        validateBackup doc = none →
        getField doc ("version") = some (JVal.str v) →
        (jsSplitDot v).headD ("") ≠ ("9") →
        importData doc fn ⟨true, ci⟩ nS nI env db = importRest doc fn ci nS nI env db) ∧
    (∀ (doc : Obj) (fn : String) (c ci : Bool) (nS nI : Int) (env : ThemeEnv) (db : DB) (v : String),
        validateBackup doc = none →
        getField doc ("version") = some (JVal.str v) →
        (jsSplitDot v).headD ("") = ("9") →
        importData doc fn ⟨c, ci⟩ nS nI env db = importRest doc fn ci nS nI env db) := by
  refine ⟨isCompatibleVersion_iff, ?_, ?_, ?_⟩
  · intro doc fn ci nS nI env db v hval hver hmaj
    unfold importData importStage2
    rw [hval, hver]
    simp [c4_aux_incompatible v hmaj]
  · intro doc fn ci nS nI env db v hval hver hmaj
    unfold importData importStage2
    rw [hval, hver]
    simp [c4_aux_incompatible v hmaj]
  · intro doc fn c ci nS nI env db v hval hver hmaj
    have hv : v ≠ ("") := by
      intro hvempty
      rw [hvempty] at hmaj
      exact absurd hmaj (by decide)
    unfold importData importStage2
    rw [hval, hver]
    simp [c4_aux_compatible v hv hmaj]

theorem c4_version_gate_witness :
    (isCompatibleVersion ("9.0") = true) ∧
    (importData c4doc8 ("f.json") ⟨false, true⟩ 1 2 themeEnv0 c1db
      = (ImportOutcome.failure ("Import cancelled by user"), c1db, themeEnv0)) ∧
    (importData c4doc8 ("f.json") ⟨true, true⟩ 1 2 themeEnv0 c1db
      = importRest c4doc8 ("f.json") true 1 2 themeEnv0 c1db) ∧
    (importData c4doc9 ("f.json") ⟨false, true⟩ 1 2 themeEnv0 c1db
      = importRest c4doc9 ("f.json") true 1 2 themeEnv0 c1db) := by
  refine ⟨?_, ?_, ?_, ?_⟩
  · exact (c4_version_gate.1 ("9.0")).mpr ⟨by decide, by decide⟩
  · exact c4_version_gate.2.1 c4doc8 ("f.json") true 1 2 themeEnv0 c1db ("8.2") rfl rfl (by decide)
  · exact c4_version_gate.2.2.1 c4doc8 ("f.json") true 1 2 themeEnv0 c1db ("8.2") rfl rfl
      (by decide)
  · exact c4_version_gate.2.2.2 c4doc9 ("f.json") false true 1 2 themeEnv0 c1db ("9.0") rfl rfl
      (by decide)

end ODS

namespace ODS

theorem any_false_of_all_not {A : Type} (l : List A) (p : A → Bool)
    (h : l.all (fun x => !(p x)) = true) : l.any p = false := by
  rw [Bool.eq_false_iff]
  intro hany
  rcases List.any_eq_true.mp hany with ⟨x, hx, hpx⟩
  have := List.all_eq_true.mp h x hx
  rw [hpx] at this
  simp at this

theorem getField_none_of_all_not (o : Obj) (f : String)
    (h : o.all (fun q => !(q.fst == f)) = true) : getField o f = none :=
  getField_none_of_any_false o f (any_false_of_all_not o (fun q => q.fst == f) h)

theorem getField_mergeObj (base patch : Obj) (f : String)
    (hnd : distinctNames patch = true) :
    getField (mergeObj base patch) f
      = match getField patch f with
        | some v => some v
        | none => getField base f := by
  induction patch generalizing base with
  | nil =>
    simp only [mergeObj, List.foldl_nil, getField_nil]
  | cons p rest ih =>
    unfold distinctNames at hnd
    rw [Bool.and_eq_true] at hnd
    have hmerge : mergeObj base (p :: rest) = mergeObj (setField base p.fst p.snd) rest := rfl
    rw [hmerge, ih _ hnd.2]
    by_cases hf : (p.fst == f) = true
    · have hpf : p.fst = f := eq_of_beq hf
      have hrest : getField rest f = none := by
        apply getField_none_of_all_not
        rw [← hpf]
        exact hnd.1
      rw [hrest, getField_cons_hit p rest f hf]
      rw [← hpf, getField_setField_self]
    · have hf' := Bool.eq_false_iff.mpr hf
      rw [getField_cons_miss p rest f hf']
      cases hrf : getField rest f with
      | some v => rfl
      | none =>
        have hfp : f ≠ p.fst := fun hh => hf (by rw [hh]; simp)
        rw [getField_setField_ne base p.fst f p.snd hfp]

theorem strictEq_eq (v k : JVal) (h : strictEq v k = true) : v = k := by
  cases v <;> cases k <;> simp [strictEq] at h <;> simp [h]

theorem keyEq_refl_of_valid (k : JVal) (h : isValidKey k = true) : keyEq k k = true := by
  cases k <;> simp [isValidKey] at h <;> simp [keyEq]

theorem keyIs_valid (cfg : StoreCfg) (q : Obj) (k : JVal) (h : keyIs cfg q k = true) :
    isValidKey k = true := by
  unfold keyIs at h
  cases hq : getField q cfg.keyPath with
  | none => rw [hq] at h; exact absurd h (by simp)
  | some v =>
    rw [hq] at h
    cases v <;> cases k <;> simp [keyEq] at h <;> simp [isValidKey]

theorem any_of_find?_some {A : Type} (l : List A) (p : A → Bool) (x : A)
    (h : l.find? p = some x) : l.any p = true := by
  rcases List.find?_some h with hp
  rcases List.mem_of_find?_eq_some h with hm
  exact List.any_eq_true.mpr ⟨x, hm, hp⟩

theorem find?_map_replace {A : Type} (l : List A) (p : A → Bool) (upd : A)
    (hfound : (l.find? p).isSome = true) (hupd : p upd = true) :
    (l.map (fun q => if p q then upd else q)).find? p = some upd := by
  induction l with
  | nil => simp at hfound
  | cons a rest ih =>
    by_cases ha : p a = true
    · rw [List.map_cons, if_pos ha]
      simp [List.find?_cons, hupd]
    · have ha' := Bool.eq_false_iff.mpr ha
      rw [List.map_cons, if_neg ha]
      simp only [List.find?_cons, ha', Bool.false_eq_true, if_false] at hfound ⊢
      exact ih hfound

/-- Claim C5: when a record exists under the key, update shallow-merges the
patch over it (each top-level patch attribute replaces the existing one),
stamps `modified` with the current time, and re-persists under the original
key: the stored record is retrievable under that key and its key-path field
equals the original key even when the patch supplied a different value. -/
theorem c5_update_merge (cfg : StoreCfg) (name : String) (now : Int) (s : Store)
    (k : JVal) (patch : Obj) (ex : Obj)
    (hex : getItem cfg s k = some ex)
    (hkp : cfg.keyPath ≠ ("modified"))
    (hkp0 : cfg.keyPath ≠ (""))
    (hnd : distinctNames patch = true) :
    ∃ s2 upd, updateItem cfg name now s k patch = Except.ok (s2, upd) ∧
      getItem cfg s2 k = some upd ∧
      getField upd cfg.keyPath = some k ∧
      getField upd ("modified") = some (JVal.num now) ∧
      (∀ f, f ≠ ("modified") → f ≠ cfg.keyPath →
        getField upd f = (match getField patch f with
          | some v => some v
          | none => getField ex f)) := by
  have hexf : s.records.find? (fun r => keyIs cfg r k) = some ex := hex
  have hkis : keyIs cfg ex k = true := by
    have h2 := List.find?_some hexf
    exact h2
  have hkval : isValidKey k = true := keyIs_valid cfg ex k hkis
  have hkk : keyEq k k = true := keyEq_refl_of_valid k hkval
  have hhk : hasKey cfg s k = true := any_of_find?_some _ _ _ hexf
  set merged0 := setField (mergeObj ex patch) ("modified") (JVal.num now) with hmerged0
  have hb : (cfg.keyPath == ("")) = false := beq_eq_false_iff_ne.mpr hkp0
  -- the final record, after the key-forcing step
  set upd := (if !(cfg.keyPath == ("")) &&
         !(match getField merged0 cfg.keyPath with
           | some v => strictEq v k
           | none => false) then setField merged0 cfg.keyPath k else merged0) with hupd
  have hkey : getField upd cfg.keyPath = some k := by
    rw [hupd]
    by_cases hcond : (!(cfg.keyPath == ("")) &&
        !(match getField merged0 cfg.keyPath with
          | some v => strictEq v k
          | none => false)) = true
    · rw [if_pos hcond]
      exact getField_setField_self _ _ _
    · rw [if_neg hcond]
      rw [Bool.and_eq_true] at hcond
      push_neg at hcond
      have h1 : (!(cfg.keyPath == (""))) = true := by simp [hb]
      have h2 := hcond h1
      cases hm : getField merged0 cfg.keyPath with
      | none => rw [hm] at h2; simp at h2
      | some v =>
        rw [hm] at h2
        have hv : strictEq v k = true := by
          by_contra hc
          exact h2 (by simp [Bool.eq_false_iff.mpr hc])
        rw [strictEq_eq v k hv]
  have hnotmod : ∀ f, f ≠ cfg.keyPath →
      getField upd f = getField merged0 f := by
    intro f hf
    rw [hupd]
    by_cases hcond : (!(cfg.keyPath == ("")) &&
        !(match getField merged0 cfg.keyPath with
          | some v => strictEq v k
          | none => false)) = true
    · rw [if_pos hcond]
      exact getField_setField_ne _ _ _ _ hf
    · rw [if_neg hcond]
  have hmod : getField upd ("modified") = some (JVal.num now) := by
    rw [hnotmod ("modified") (fun hh => hkp hh.symm), hmerged0]
    exact getField_setField_self _ _ _
  have hupdkis : keyIs cfg upd k = true := by
    unfold keyIs
    rw [hkey]
    exact hkk
  have hput : putRecord cfg s upd
      = Except.ok { s with records := s.records.map (fun q => if keyIs cfg q k then upd else q) } := by
    unfold putRecord
    rw [hkey]
    simp only [hkval, Bool.not_true, hhk]
    simp
  refine ⟨{ s with records := s.records.map (fun q => if keyIs cfg q k then upd else q) }, upd, ?_, ?_, hkey, hmod, ?_⟩
  · unfold updateItem
    rw [hex]
    show (match putRecord cfg s upd with
          | Except.ok s2 => Except.ok (s2, upd)
          | Except.error e => Except.error e)
        = Except.ok (({ s with records := s.records.map (fun q => if keyIs cfg q k then upd else q) } : Store), upd)
    rw [hput]
  · unfold getItem
    apply find?_map_replace
    · rw [hexf]
      rfl
    · exact hupdkis
  · intro f hfm hfk
    rw [hnotmod f hfk, hmerged0, getField_setField_ne _ _ _ _ hfm]
    exact getField_mergeObj ex patch f hnd

end ODS

namespace ODS

theorem keyEq_eq (v k : JVal) (h : keyEq v k = true) : v = k := by
  cases v <;> cases k <;> simp [keyEq] at h <;> simp [h]

theorem find?_none_of_any_false {A : Type} (l : List A) (p : A → Bool)
    (h : l.any p = false) : l.find? p = none := by
  rw [List.find?_eq_none]
  intro x hx hpx
  have : l.any p = true := List.any_eq_true.mpr ⟨x, hx, hpx⟩
  rw [h] at this
  simp at this

theorem stampTimestamp_of_truthy (now : Int) (r : Obj)
    (h : truthy (getField r ("timestamp")) = true) : stampTimestamp now r = r := by
  unfold stampTimestamp
  rw [if_pos h]

theorem stampTimestamp_ts_of_falsy (now : Int) (r : Obj)
    (h : truthy (getField r ("timestamp")) = false) :
    getField (stampTimestamp now r) ("timestamp") = some (JVal.num now) := by
  unfold stampTimestamp
  rw [if_neg (by simp [h])]
  exact getField_setField_self _ _ _

theorem stampTimestamp_ne (now : Int) (r : Obj) (f : String) (hf : f ≠ ("timestamp")) :
    getField (stampTimestamp now r) f = getField r f := by
  unfold stampTimestamp
  by_cases h : truthy (getField r ("timestamp")) = true
  · rw [if_pos h]
  · rw [if_neg h]
    exact getField_setField_ne _ _ _ _ hf

theorem stampTimestamp_present (now : Int) (r : Obj) :
    (getField (stampTimestamp now r) ("timestamp")).isSome = true := by
  by_cases h : truthy (getField r ("timestamp")) = true
  · rw [stampTimestamp_of_truthy now r h]
    cases hg : getField r ("timestamp") with
    | none => rw [hg] at h; simp [truthy] at h
    | some v => simp
  · rw [stampTimestamp_ts_of_falsy now r (Bool.eq_false_iff.mpr h)]
    simp

theorem addItem_ok_shape (cfg : StoreCfg) (now : Int) (s : Store) (r : Obj)
    (s2 : Store) (k : JVal)
    (hadd : addItem cfg now s r = Except.ok (s2, k)) :
    ∃ stored, s2.records = s.records ++ [stored] ∧ keyIs cfg stored k = true ∧
      (stored = stampTimestamp now r ∨
        (stored = setField (stampTimestamp now r) cfg.keyPath k ∧
          getField (stampTimestamp now r) cfg.keyPath = none)) := by
  unfold addItem at hadd
  split at hadd
  · -- callerKey
    split at hadd
    · exact absurd hadd (by simp)
    · rename_i k0 hfield
      split at hadd
      · exact absurd hadd (by simp)
      · split at hadd
        · exact absurd hadd (by simp)
        · simp only [Except.ok.injEq, Prod.mk.injEq] at hadd
          obtain ⟨hs2, hk⟩ := hadd
          refine ⟨stampTimestamp now r, ?_, ?_, Or.inl rfl⟩
          · rw [← hs2]
          · unfold keyIs
            rw [hfield, ← hk]
            rename_i hvalid _
            apply keyEq_refl_of_valid
            simpa using hvalid
  · -- autoKey
    split at hadd
    · rename_i k0 hfield
      split at hadd
      · exact absurd hadd (by simp)
      · split at hadd
        · exact absurd hadd (by simp)
        · simp only [Except.ok.injEq, Prod.mk.injEq] at hadd
          obtain ⟨hs2, hk⟩ := hadd
          refine ⟨stampTimestamp now r, ?_, ?_, Or.inl rfl⟩
          · rw [← hs2]
          · unfold keyIs
            rw [hfield, ← hk]
            rename_i hvalid _
            apply keyEq_refl_of_valid
            simpa using hvalid
    · rename_i hfield
      simp only [Except.ok.injEq, Prod.mk.injEq] at hadd
      obtain ⟨hs2, hk⟩ := hadd
      refine ⟨setField (stampTimestamp now r) cfg.keyPath k, ?_, ?_, Or.inr ⟨rfl, hfield⟩⟩
      · rw [← hs2, ← hk]
      · unfold keyIs
        rw [getField_setField_self]
        rw [← hk]
        simp [keyEq]

/-- Claim C7 (amended): after a successful add of a record whose key was not
already occupied, get with the assigned key returns the stored record, whose
key-path field holds the assigned key, whose timestamp equals the input's
when the input's timestamp was truthy and the current time otherwise (add
re-stamps any falsy timestamp, not only an absent one), and whose every
other field equals the input's. -/
theorem c7_add_get (cfg : StoreCfg) (now : Int) (s : Store) (r : Obj)
    (s2 : Store) (k : JVal)
    (hadd : addItem cfg now s r = Except.ok (s2, k))
    (hfresh : hasKey cfg s k = false) :
    ∃ stored, getItem cfg s2 k = some stored ∧
      getField stored cfg.keyPath = some k ∧
      (truthy (getField r ("timestamp")) = true →
        getField stored ("timestamp") = getField r ("timestamp")) ∧
      (truthy (getField r ("timestamp")) = false →
        getField stored ("timestamp") = some (JVal.num now)) ∧
      (∀ f, f ≠ ("timestamp") → f ≠ cfg.keyPath → getField stored f = getField r f) := by
  obtain ⟨stored, hrec, hkis, hshape⟩ := addItem_ok_shape cfg now s r s2 k hadd
  have hget : getItem cfg s2 k = some stored := by
    unfold getItem
    rw [hrec, List.find?_append, find?_none_of_any_false _ _ hfresh]
    simp [List.find?_cons, hkis]
  have hkey : getField stored cfg.keyPath = some k := by
    unfold keyIs at hkis
    cases hg : getField stored cfg.keyPath with
    | none => rw [hg] at hkis; simp at hkis
    | some v =>
      rw [hg] at hkis
      rw [keyEq_eq v k hkis]
  refine ⟨stored, hget, hkey, ?_, ?_, ?_⟩
  · intro htr
    cases hshape with
    | inl h1 =>
      rw [h1, stampTimestamp_of_truthy now r htr]
    | inr h2 =>
      obtain ⟨hst, hnone⟩ := h2
      have hkpts : cfg.keyPath ≠ ("timestamp") := by
        intro hcontra
        rw [hcontra] at hnone
        have := stampTimestamp_present now r
        rw [hnone] at this
        simp at this
      rw [hst, getField_setField_ne _ _ _ _ (fun hh => hkpts hh.symm)]
      rw [stampTimestamp_of_truthy now r htr]
  · intro hfa
    cases hshape with
    | inl h1 =>
      rw [h1]
      exact stampTimestamp_ts_of_falsy now r hfa
    | inr h2 =>
      obtain ⟨hst, hnone⟩ := h2
      have hkpts : cfg.keyPath ≠ ("timestamp") := by
        intro hcontra
        rw [hcontra] at hnone
        have := stampTimestamp_present now r
        rw [hnone] at this
        simp at this
      rw [hst, getField_setField_ne _ _ _ _ (fun hh => hkpts hh.symm)]
      exact stampTimestamp_ts_of_falsy now r hfa
  · intro f hft hfk
    cases hshape with
    | inl h1 =>
      rw [h1]
      exact stampTimestamp_ne now r f hft
    | inr h2 =>
      obtain ⟨hst, _⟩ := h2
      rw [hst, getField_setField_ne _ _ _ _ hfk]
      exact stampTimestamp_ne now r f hft

/-- Witness for the amended C7 at a concrete themes record lacking a
timestamp. -/
theorem c7_add_get_witness :
    addItem themesCfg 5 emptyStore ([(("id"), JVal.str ("a"))])
      = Except.ok ({ records := [[(("id"), JVal.str ("a")), (("timestamp"), JVal.num 5)]], nextKey := 1 }, JVal.str ("a")) ∧
    hasKey themesCfg emptyStore (JVal.str ("a")) = false ∧
    (∃ stored,
      getItem themesCfg ({ records := [[(("id"), JVal.str ("a")), (("timestamp"), JVal.num 5)]], nextKey := 1 } : Store) (JVal.str ("a")) = some stored ∧
      getField stored themesCfg.keyPath = some (JVal.str ("a")) ∧
      (truthy (getField ([(("id"), JVal.str ("a"))]) ("timestamp")) = true →
        getField stored ("timestamp") = getField ([(("id"), JVal.str ("a"))]) ("timestamp")) ∧
      (truthy (getField ([(("id"), JVal.str ("a"))]) ("timestamp")) = false →
        getField stored ("timestamp") = some (JVal.num 5)) ∧
      (∀ f, f ≠ ("timestamp") → f ≠ themesCfg.keyPath →
        getField stored f = getField ([(("id"), JVal.str ("a"))]) f)) :=
  ⟨rfl, rfl,
    c7_add_get themesCfg 5 emptyStore ([(("id"), JVal.str ("a"))])
      ({ records := [[(("id"), JVal.str ("a")), (("timestamp"), JVal.num 5)]], nextKey := 1 }) (JVal.str ("a")) rfl rfl⟩

end ODS

namespace ODS

theorem c5_update_merge_witness :
    getItem themesCfg c5store (JVal.str ("a")) = some c5rec ∧
    (∃ s2 upd, updateItem themesCfg ("themes") 9 c5store (JVal.str ("a")) c5patch
        = Except.ok (s2, upd) ∧
      getItem themesCfg s2 (JVal.str ("a")) = some upd ∧
      getField upd themesCfg.keyPath = some (JVal.str ("a")) ∧
      getField upd ("modified") = some (JVal.num 9) ∧
      (∀ f, f ≠ ("modified") → f ≠ themesCfg.keyPath →
        getField upd f = (match getField c5patch f with
          | some v => some v
          | none => getField c5rec f))) :=
  ⟨rfl, c5_update_merge themesCfg ("themes") 9 c5store (JVal.str ("a")) c5patch c5rec
    rfl (by decide) (by decide) rfl⟩

end ODS

namespace ODS

theorem keyEq_symm (a b : JVal) : keyEq a b = keyEq b a := by
  cases a <;> cases b <;> simp [keyEq] <;> exact eq_comm

theorem sameKeyB_symm (cfg : StoreCfg) (r q : Obj) : sameKeyB cfg r q = sameKeyB cfg q r := by
  unfold sameKeyB keyIs
  cases getField r cfg.keyPath with
  | none => cases getField q cfg.keyPath <;> rfl
  | some v =>
    cases getField q cfg.keyPath with
    | none => rfl
    | some w => exact keyEq_symm w v

theorem all_imp {A : Type} (l : List A) (p q : A → Bool)
    (h : ∀ x ∈ l, p x = true → q x = true) (hp : l.all p = true) : l.all q = true := by
  rw [List.all_eq_true] at hp ⊢
  intro x hx
  exact h x hx (hp x hx)

theorem stamp_of_ts_nonzero (now x : Int) (r : Obj)
    (hx : getField r ("timestamp") = some (JVal.num x)) (h : x ≠ 0) :
    stampTimestamp now r = r := by
  apply stampTimestamp_of_truthy
  rw [hx]
  simp [truthy, truthyV, h]

theorem addItem_callerKey_ok (cfg : StoreCfg) (now : Int) (s : Store) (r : Obj) (k : JVal)
    (hgen : cfg.gen = KeyGen.callerKey)
    (hstamp : stampTimestamp now r = r)
    (hk : getField r cfg.keyPath = some k)
    (hkv : isValidKey k = true)
    (hfresh : hasKey cfg s k = false) :
    addItem cfg now s r = Except.ok ({ s with records := s.records ++ [r] }, k) := by
  unfold addItem
  rw [hgen, hstamp, hk]
  simp [hkv, hfresh]

theorem exportData_ok (now : Int) (db : DB)
    (hnz : now ≠ 0)
    (hfresh : hasKey backupsCfg db.backups (JVal.num now) = false) :
    exportData now db
      = ({ success := true, filename := some (exportFilename now), error := none },
         { db with backups := { records := db.backups.records ++ [exportBackupRecord now db],
                                nextKey := db.backups.nextKey } }) := by
  unfold exportData
  rw [addItem_callerKey_ok backupsCfg now db.backups (exportBackupRecord now db) (JVal.num now)
    rfl (stamp_of_ts_nonzero now now _ rfl hnz) rfl rfl hfresh]

theorem exportData_themes (now : Int) (db : DB) :
    ((exportData now db).2).themes = db.themes := by
  unfold exportData
  cases addItem backupsCfg now db.backups (exportBackupRecord now db) with
  | error e => rfl
  | ok p =>
    obtain ⟨b2, k⟩ := p
    rfl

theorem exportData_operations (now : Int) (db : DB) :
    ((exportData now db).2).operations = db.operations := by
  unfold exportData
  cases addItem backupsCfg now db.backups (exportBackupRecord now db) with
  | error e => rfl
  | ok p =>
    obtain ⟨b2, k⟩ := p
    rfl

theorem exportData_workspaces (now : Int) (db : DB) :
    ((exportData now db).2).workspaces = db.workspaces := by
  unfold exportData
  cases addItem backupsCfg now db.backups (exportBackupRecord now db) with
  | error e => rfl
  | ok p =>
    obtain ⟨b2, k⟩ := p
    rfl

theorem stamp_exportRecord_ts (now : Int) (db : DB) :
    getField (stampTimestamp now (exportBackupRecord now db)) ("timestamp")
      = some (JVal.num now) := by
  by_cases h : truthy (getField (exportBackupRecord now db) ("timestamp")) = true
  · rw [stampTimestamp_of_truthy _ _ h]
    rfl
  · exact stampTimestamp_ts_of_falsy _ _ (Bool.eq_false_iff.mpr h)

theorem exportData_backups_hasKey (now : Int) (db : DB) (k : JVal)
    (h1 : hasKey backupsCfg db.backups k = false)
    (h2 : keyEq (JVal.num now) k = false) :
    hasKey backupsCfg ((exportData now db).2).backups k = false := by
  unfold exportData
  cases hadd : addItem backupsCfg now db.backups (exportBackupRecord now db) with
  | error e => exact h1
  | ok p =>
    obtain ⟨b2, kk⟩ := p
    obtain ⟨stored, hrec, hkis, hshape⟩ := addItem_ok_shape _ _ _ _ _ _ hadd
    show hasKey backupsCfg b2 k = false
    have hstored : stored = stampTimestamp now (exportBackupRecord now db) := by
      cases hshape with
      | inl h => exact h
      | inr h =>
        obtain ⟨_, hnone⟩ := h
        have hpres := stamp_exportRecord_ts now db
        rw [show (backupsCfg.keyPath) = ("timestamp") from rfl] at hnone
        rw [hnone] at hpres
        exact absurd hpres (by simp)
    unfold hasKey
    rw [show b2.records = db.backups.records ++ [stored] from hrec, List.any_append]
    have hks : keyIs backupsCfg stored k = false := by
      unfold keyIs
      rw [hstored, show (backupsCfg.keyPath) = ("timestamp") from rfl, stamp_exportRecord_ts now db]
      exact h2
    have h1b : db.backups.records.any (fun r => keyIs backupsCfg r k) = false := h1
    rw [h1b, Bool.false_or]
    simp [hks]

theorem importClear_themes (db : DB) : (importClear db).themes = clearStore db.themes := rfl

theorem importClear_backups (db : DB) : (importClear db).backups = db.backups := rfl

end ODS

namespace ODS

theorem importLoop_themes_ok (now : Int) (ts : List Obj) (acc : List Obj) (nk : Int) (cnt : Nat)
    (hts : ts.all (fun r => truthy (getField r ("timestamp"))) = true)
    (hkey : ts.all (fun r => keyPresentValid themesCfg r) = true)
    (hdis : distinctKeysB themesCfg ts = true)
    (hacc : ts.all (fun r => acc.all (fun q => !(sameKeyB themesCfg r q))) = true) :
    importLoop (addThemeElem now) (ts.map JVal.obj) ({ records := acc, nextKey := nk }) cnt
      = ({ records := acc ++ ts, nextKey := nk }, cnt + ts.length, none) := by
  induction ts generalizing acc cnt with
  | nil => simp [importLoop]
  | cons r rest ih =>
    rw [List.all_cons, Bool.and_eq_true] at hts hkey hacc
    unfold distinctKeysB at hdis
    rw [Bool.and_eq_true] at hdis
    obtain ⟨k, hk, hkv⟩ : ∃ k, getField r ("id") = some k ∧ isValidKey k = true := by
      have h1 := hkey.1
      unfold keyPresentValid at h1
      cases hg : getField r themesCfg.keyPath with
      | none => rw [hg] at h1; exact absurd h1 (by simp)
      | some v =>
        rw [hg] at h1
        exact ⟨v, hg, h1⟩
    have hsame : ∀ q, sameKeyB themesCfg r q = keyIs themesCfg q k := by
      intro q
      unfold sameKeyB
      rw [show getField r themesCfg.keyPath = some k from hk]
    have hhk : hasKey themesCfg ({ records := acc, nextKey := nk }) k = false := by
      unfold hasKey
      apply any_false_of_all_not
      apply all_imp acc (fun q => !(sameKeyB themesCfg r q)) _ _ hacc.1
      intro q hq hqp
      rw [← hsame q]
      exact hqp
    have hstamp : stampTimestamp now r = r := stampTimestamp_of_truthy now r hts.1
    have hstep : addThemeElem now ({ records := acc, nextKey := nk }) (JVal.obj r)
        = Except.ok ({ records := acc ++ [r], nextKey := nk }, k) := by
      show addItem themesCfg now ({ records := acc, nextKey := nk }) r
        = Except.ok ({ records := acc ++ [r], nextKey := nk }, k)
      unfold addItem
      rw [show themesCfg.gen = KeyGen.callerKey from rfl, hstamp,
        show getField r themesCfg.keyPath = some k from hk]
      simp [hkv, hhk]
    rw [List.map_cons]
    have haccnext : rest.all
        (fun r2 => (acc ++ [r]).all (fun q => !(sameKeyB themesCfg r2 q))) = true := by
      rw [List.all_eq_true]
      intro x hx
      rw [List.all_append]
      have h1 : acc.all (fun q => !(sameKeyB themesCfg x q)) = true :=
        List.all_eq_true.mp hacc.2 x hx
      have h2 : sameKeyB themesCfg x r = false := by
        rw [sameKeyB_symm]
        have h3 := List.all_eq_true.mp hdis.1 x hx
        simpa using h3
      simp [h1, List.all_cons, h2]
    have hgoal : importLoop (addThemeElem now) (JVal.obj r :: List.map JVal.obj rest)
        ({ records := acc, nextKey := nk }) cnt
        = importLoop (addThemeElem now) (List.map JVal.obj rest)
            ({ records := acc ++ [r], nextKey := nk }) (cnt + 1) := by
      show (match addThemeElem now ({ records := acc, nextKey := nk } : Store) (JVal.obj r) with
        | Except.ok (s2, _) =>
          importLoop (addThemeElem now) (List.map JVal.obj rest) s2 (cnt + 1)
        | Except.error e => (({ records := acc, nextKey := nk } : Store), cnt, some e)) = _
      rw [hstep]
    rw [hgoal, ih (acc ++ [r]) (cnt + 1) hts.2 hkey.2 hdis.2 haccnext]
    simp [List.append_assoc]
    omega

end ODS

namespace ODS

theorem removeField_idem (o : Obj) (k : String) :
    removeField (removeField o k) k = removeField o k := by
  unfold removeField
  rw [List.filter_filter]
  apply List.filter_congr
  intro x hx
  simp [Bool.and_self]

theorem assignIds_strip (nk : Int) (os : List Obj) :
    (assignIds nk os).map (fun r => removeField r ("id"))
      = os.map (fun r => removeField r ("id")) := by
  induction os generalizing nk with
  | nil => rfl
  | cons r rest ih =>
    unfold assignIds
    rw [List.map_cons, List.map_cons, removeField_setField_self, removeField_idem]
    rw [ih (nk + 1)]

theorem assignIds_length (nk : Int) (os : List Obj) :
    (assignIds nk os).length = os.length := by
  induction os generalizing nk with
  | nil => rfl
  | cons r rest ih =>
    unfold assignIds
    rw [List.length_cons, List.length_cons, ih (nk + 1)]

theorem importLoop_stripped_ok (cfg : StoreCfg) (now : Int) (os : List Obj)
    (acc : List Obj) (nk : Int) (cnt : Nat)
    (hgen : cfg.gen = KeyGen.autoKey) (hkp : cfg.keyPath = ("id"))
    (hts : os.all (fun r => truthy (getField r ("timestamp"))) = true) :
    importLoop (addStrippedElem cfg now) (os.map JVal.obj) ({ records := acc, nextKey := nk }) cnt
      = ({ records := acc ++ assignIds nk os, nextKey := nk + (os.length : Int) },
         cnt + os.length, none) := by
  induction os generalizing acc nk cnt with
  | nil => simp [importLoop, assignIds]
  | cons r rest ih =>
    rw [List.all_cons, Bool.and_eq_true] at hts
    have hstamp : stampTimestamp now (removeField r ("id")) = removeField r ("id") := by
      apply stampTimestamp_of_truthy
      rw [getField_removeField_ne r ("id") ("timestamp") (by decide)]
      exact hts.1
    have hnone : getField (removeField r ("id")) cfg.keyPath = none := by
      rw [hkp]
      exact getField_removeField_self r ("id")
    have hstep : addStrippedElem cfg now ({ records := acc, nextKey := nk }) (JVal.obj r)
        = Except.ok
            ({ records := acc ++ [setField (removeField r ("id")) ("id") (JVal.num nk)],
               nextKey := nk + 1 }, JVal.num nk) := by
      show addItem cfg now ({ records := acc, nextKey := nk }) (removeField r ("id"))
        = Except.ok
            ({ records := acc ++ [setField (removeField r ("id")) ("id") (JVal.num nk)],
               nextKey := nk + 1 }, JVal.num nk)
      unfold addItem
      rw [hgen, hstamp, hnone, hkp]
    rw [List.map_cons]
    have hgoal : importLoop (addStrippedElem cfg now) (JVal.obj r :: List.map JVal.obj rest)
        ({ records := acc, nextKey := nk }) cnt
        = importLoop (addStrippedElem cfg now) (List.map JVal.obj rest)
            ({ records := acc ++ [setField (removeField r ("id")) ("id") (JVal.num nk)],
               nextKey := nk + 1 } : Store) (cnt + 1) := by
      show (match addStrippedElem cfg now ({ records := acc, nextKey := nk } : Store) (JVal.obj r) with
        | Except.ok (s2, _) =>
          importLoop (addStrippedElem cfg now) (List.map JVal.obj rest) s2 (cnt + 1)
        | Except.error e => (({ records := acc, nextKey := nk } : Store), cnt, some e)) = _
      rw [hstep]
    rw [hgoal, ih (acc ++ [setField (removeField r ("id")) ("id") (JVal.num nk)]) (nk + 1) (cnt + 1) hts.2]
    rw [show assignIds nk (r :: rest)
        = setField (removeField r ("id")) ("id") (JVal.num nk) :: assignIds (nk + 1) rest from rfl]
    simp [List.append_assoc]
    constructor
    · omega
    · omega

end ODS

namespace ODS

theorem importCollections_eq (backup : Obj) (fn : String) (nI : Int) (db : DB)
    (sT sO sW : Store) (cT cO cW : Nat) (b2 : Store) (k : JVal)
    (hT : importSection (addThemeElem nI)
        (jsGet ((getField backup ("data")).getD JVal.null) ("themes")) db.themes
      = (sT, cT, none))
    (hO : importSection (addStrippedElem operationsCfg nI)
        (jsGet ((getField backup ("data")).getD JVal.null) ("operations")) db.operations
      = (sO, cO, none))
    (hW : importSection (addStrippedElem workspacesCfg nI)
        (jsGet ((getField backup ("data")).getD JVal.null) ("workspaces")) db.workspaces
      = (sW, cW, none))
    (hB : addItem backupsCfg nI db.backups (importSummary backup fn nI ⟨cT, cO, cW⟩)
      = Except.ok (b2, k)) :
    importCollections backup fn nI db
      = (ImportOutcome.success ⟨cT, cO, cW⟩,
         { themes := sT, operations := sO, workspaces := sW, backups := b2 }) := by
  unfold importCollections
  simp only [hT, hO, hW, hB]

theorem validate_export_doc (now : Int) (db : DB) (h : now ≠ 0) :
    validateBackup (buildBackupDoc now db) = none := by
  have h0 : ((now : Int) == 0) = false := beq_eq_false_iff_ne.mpr h
  unfold validateBackup
  rw [show getField (buildBackupDoc now db) ("magic") = some (JVal.str BACKUP_MAGIC) from rfl]
  rw [show getField (buildBackupDoc now db) ("version") = some (JVal.str BACKUP_VERSION) from rfl]
  rw [show getField (buildBackupDoc now db) ("timestamp") = some (JVal.num now) from rfl]
  rw [show getField (buildBackupDoc now db) ("data") = some (JVal.obj
      [ (("themes"), JVal.arr ((getAllItems db.themes).map JVal.obj)),
        (("operations"), JVal.arr ((getAllItems db.operations).map JVal.obj)),
        (("workspaces"), JVal.arr ((getAllItems db.workspaces).map JVal.obj)) ]) from rfl]
  simp [strMatches, truthy, truthyV, typeofIsObject, BACKUP_MAGIC, BACKUP_VERSION, h0]

theorem importData_to_phase (doc : Obj) (fn : String) (c : Bool) (nS nI : Int)
    (env : ThemeEnv) (db : DB) (v : String)
    (hval : validateBackup doc = none)
    (hver : getField doc ("version") = some (JVal.str v))
    (hcompat : isCompatibleVersion v = true)
    (hmeta : metadataOk doc = true) :
    importData doc fn ⟨c, true⟩ nS nI env db = importPhase doc fn nS nI env db := by
  unfold importData importStage2 importRest
  rw [hval, hver]
  simp [hcompat, hmeta]

theorem importSection_arr (step : Store → JVal → Except String (Store × JVal))
    (l : List JVal) (s : Store) :
    importSection step (some (JVal.arr l)) s = importLoop step l s 0 := by
  cases l with
  | nil => rfl
  | cons v vs =>
    show (if (v :: vs).length > 0 then importLoop step (v :: vs) s 0 else (s, 0, none))
      = importLoop step (v :: vs) s 0
    rw [if_pos (show (v :: vs).length > 0 from Nat.succ_pos vs.length)]

end ODS

namespace ODS

/-- Claim C2 (amended): exporting and then importing the produced document
(confirmations accepted, backup-summary keys fresh) restores the three
collections to equivalent content - themes records are restored verbatim,
operations and workspaces records are restored with only the primary key
`id` regenerated - provided every exported record carries a truthy
timestamp (records whose timestamp is absent or 0 are re-stamped at import
time, which is the counterexample to the claim as stated) and the themes
collection holds a record under the key `default`, as after initialization
(without one, the post-import theme reload persists a fresh default theme
record into the restored themes collection). -/
theorem c2_export_import_roundtrip (db : DB) (fn : String) (nE nS nI : Int)
    (env : ThemeEnv)
    (hE0 : nE ≠ 0) (hI0 : nI ≠ 0)
    (hbE : hasKey backupsCfg db.backups (JVal.num nE) = false)
    (hbI : hasKey backupsCfg db.backups (JVal.num nI) = false)
    (hIE : nI ≠ nE) (hIS : nI ≠ nS)
    (htT : db.themes.records.all (fun r => truthy (getField r ("timestamp"))) = true)
    (hkT : db.themes.records.all (fun r => keyPresentValid themesCfg r) = true)
    (hdT : distinctKeysB themesCfg db.themes.records = true)
    (htO : db.operations.records.all (fun r => truthy (getField r ("timestamp"))) = true)
    (htW : db.workspaces.records.all (fun r => truthy (getField r ("timestamp"))) = true)
    (hdef : hasKey themesCfg db.themes (JVal.str ("default")) = true) :
    (exportData nE db).1.success = true ∧
    (importData (buildBackupDoc nE db) fn ⟨true, true⟩ nS nI env ((exportData nE db).2)).1
      = ImportOutcome.success
          ⟨db.themes.records.length, db.operations.records.length, db.workspaces.records.length⟩ ∧
    ((importData (buildBackupDoc nE db) fn ⟨true, true⟩ nS nI env
        ((exportData nE db).2)).2.1).themes.records
      = db.themes.records ∧
    (((importData (buildBackupDoc nE db) fn ⟨true, true⟩ nS nI env
        ((exportData nE db).2)).2.1).operations.records).map (fun r => removeField r ("id"))
      = db.operations.records.map (fun r => removeField r ("id")) ∧
    (((importData (buildBackupDoc nE db) fn ⟨true, true⟩ nS nI env
        ((exportData nE db).2)).2.1).workspaces.records).map (fun r => removeField r ("id"))
      = db.workspaces.records.map (fun r => removeField r ("id")) := by
  have hsucc : (exportData nE db).1.success = true := by
    rw [exportData_ok nE db hE0 hbE]
  have hval : validateBackup (buildBackupDoc nE db) = none := validate_export_doc nE db hE0
  have hstage : importData (buildBackupDoc nE db) fn ⟨true, true⟩ nS nI env ((exportData nE db).2)
      = importPhase (buildBackupDoc nE db) fn nS nI env ((exportData nE db).2) :=
    importData_to_phase _ fn true nS nI env _ BACKUP_VERSION hval rfl rfl rfl
  -- the database seen by the destructive phase
  have h2T : ((exportData nE db).2).themes = db.themes := exportData_themes nE db
  have h2O : ((exportData nE db).2).operations = db.operations := exportData_operations nE db
  have h2W : ((exportData nE db).2).workspaces = db.workspaces := exportData_workspaces nE db
  have h3T : (((exportData nS ((exportData nE db).2)).2)).themes = db.themes := by
    rw [exportData_themes, h2T]
  have h3O : (((exportData nS ((exportData nE db).2)).2)).operations = db.operations := by
    rw [exportData_operations, h2O]
  have h3W : (((exportData nS ((exportData nE db).2)).2)).workspaces = db.workspaces := by
    rw [exportData_workspaces, h2W]
  have hb2I : hasKey backupsCfg (((exportData nE db).2)).backups (JVal.num nI) = false := by
    apply exportData_backups_hasKey
    · exact hbI
    · show ((nE : Int) == nI) = false
      exact beq_eq_false_iff_ne.mpr (fun hh => hIE hh.symm)
  have hb3I : hasKey backupsCfg (((exportData nS ((exportData nE db).2)).2)).backups
      (JVal.num nI) = false := by
    apply exportData_backups_hasKey
    · exact hb2I
    · show ((nS : Int) == nI) = false
      exact beq_eq_false_iff_ne.mpr (fun hh => hIS hh.symm)
  -- the three sections of the exported document
  have hdoc : (getField (buildBackupDoc nE db) ("data")).getD JVal.null
      = JVal.obj
        [ (("themes"), JVal.arr (db.themes.records.map JVal.obj)),
          (("operations"), JVal.arr (db.operations.records.map JVal.obj)),
          (("workspaces"), JVal.arr (db.workspaces.records.map JVal.obj)) ] := rfl
  set db4 : DB := importClear ((exportData nS ((exportData nE db).2)).2) with hdb4
  have h4T : db4.themes
      = ({ records := [], nextKey := db.themes.nextKey } : Store) := by
    rw [hdb4]
    show clearStore (((exportData nS ((exportData nE db).2)).2)).themes = _
    rw [h3T]
    rfl
  have h4O : db4.operations
      = ({ records := [], nextKey := db.operations.nextKey } : Store) := by
    rw [hdb4]
    show clearStore (((exportData nS ((exportData nE db).2)).2)).operations = _
    rw [h3O]
    rfl
  have h4W : db4.workspaces
      = ({ records := [], nextKey := db.workspaces.nextKey } : Store) := by
    rw [hdb4]
    show clearStore (((exportData nS ((exportData nE db).2)).2)).workspaces = _
    rw [h3W]
    rfl
  have h4B : db4.backups = (((exportData nS ((exportData nE db).2)).2)).backups := rfl
  have hT : importSection (addThemeElem nI)
      (jsGet ((getField (buildBackupDoc nE db) ("data")).getD JVal.null) ("themes")) db4.themes
      = (({ records := db.themes.records, nextKey := db.themes.nextKey } : Store),
         db.themes.records.length, none) := by
    rw [hdoc, h4T]
    rw [show jsGet (JVal.obj
        [ (("themes"), JVal.arr (db.themes.records.map JVal.obj)),
          (("operations"), JVal.arr (db.operations.records.map JVal.obj)),
          (("workspaces"), JVal.arr (db.workspaces.records.map JVal.obj)) ]) ("themes")
      = some (JVal.arr (db.themes.records.map JVal.obj)) from rfl]
    rw [importSection_arr]
    rw [importLoop_themes_ok nI db.themes.records [] db.themes.nextKey 0 htT hkT hdT
      (by
        apply List.all_eq_true.mpr
        intro x hx
        rfl)]
    simp
  have hO : importSection (addStrippedElem operationsCfg nI)
      (jsGet ((getField (buildBackupDoc nE db) ("data")).getD JVal.null) ("operations")) db4.operations
      = (({ records := assignIds db.operations.nextKey db.operations.records,
            nextKey := db.operations.nextKey + (db.operations.records.length : Int) } : Store),
         db.operations.records.length, none) := by
    rw [hdoc, h4O]
    rw [show jsGet (JVal.obj
        [ (("themes"), JVal.arr (db.themes.records.map JVal.obj)),
          (("operations"), JVal.arr (db.operations.records.map JVal.obj)),
          (("workspaces"), JVal.arr (db.workspaces.records.map JVal.obj)) ]) ("operations")
      = some (JVal.arr (db.operations.records.map JVal.obj)) from rfl]
    rw [importSection_arr]
    rw [importLoop_stripped_ok operationsCfg nI db.operations.records [] db.operations.nextKey 0
      rfl rfl htO]
    simp
  have hW : importSection (addStrippedElem workspacesCfg nI)
      (jsGet ((getField (buildBackupDoc nE db) ("data")).getD JVal.null) ("workspaces")) db4.workspaces
      = (({ records := assignIds db.workspaces.nextKey db.workspaces.records,
            nextKey := db.workspaces.nextKey + (db.workspaces.records.length : Int) } : Store),
         db.workspaces.records.length, none) := by
    rw [hdoc, h4W]
    rw [show jsGet (JVal.obj
        [ (("themes"), JVal.arr (db.themes.records.map JVal.obj)),
          (("operations"), JVal.arr (db.operations.records.map JVal.obj)),
          (("workspaces"), JVal.arr (db.workspaces.records.map JVal.obj)) ]) ("workspaces")
      = some (JVal.arr (db.workspaces.records.map JVal.obj)) from rfl]
    rw [importSection_arr]
    rw [importLoop_stripped_ok workspacesCfg nI db.workspaces.records [] db.workspaces.nextKey 0
      rfl rfl htW]
    simp
  have hB : addItem backupsCfg nI db4.backups
      (importSummary (buildBackupDoc nE db) fn nI
        ⟨db.themes.records.length, db.operations.records.length, db.workspaces.records.length⟩)
      = Except.ok ({ db4.backups with records := db4.backups.records
          ++ [importSummary (buildBackupDoc nE db) fn nI
            ⟨db.themes.records.length, db.operations.records.length, db.workspaces.records.length⟩] },
        JVal.num nI) := by
    apply addItem_callerKey_ok backupsCfg nI db4.backups _ (JVal.num nI) rfl
    · exact stamp_of_ts_nonzero nI nI _ rfl hI0
    · rfl
    · rfl
    · rw [h4B]
      exact hb3I
  have hcoll := importCollections_eq (buildBackupDoc nE db) fn nI db4 _ _ _ _ _ _ _ _ hT hO hW hB
  have hdef2 : db.themes.records.any (fun r => keyIs themesCfg r (JVal.str ("default")))
      = true := hdef
  have hfind : ∃ r0, db.themes.records.find? (fun r => keyIs themesCfg r (JVal.str ("default")))
      = some r0 := by
    cases hcase : db.themes.records.find? (fun r => keyIs themesCfg r (JVal.str ("default"))) with
    | some r0 => exact ⟨r0, rfl⟩
    | none =>
      rcases List.any_eq_true.mp hdef2 with ⟨r, hr, hkr⟩
      have hnone := List.find?_eq_none.mp hcase r hr
      rw [hkr] at hnone
      simp at hnone
  obtain ⟨r0, hfind⟩ := hfind
  have hload : loadTheme nI env
      ({ records := db.themes.records, nextKey := db.themes.nextKey } : Store)
      = (({ records := db.themes.records, nextKey := db.themes.nextKey } : Store),
         applyFromRecord r0 env) := by
    unfold loadTheme
    rw [show getItem themesCfg
        ({ records := db.themes.records, nextKey := db.themes.nextKey } : Store)
        (JVal.str ("default"))
      = db.themes.records.find? (fun r => keyIs themesCfg r (JVal.str ("default"))) from rfl]
    simp only [hfind]
  rw [hstage]
  unfold importPhase
  rw [← hdb4]
  simp only [hcoll, hload]
  refine ⟨hsucc, trivial, trivial, ?_, ?_⟩
  · exact assignIds_strip db.operations.nextKey db.operations.records
  · exact assignIds_strip db.workspaces.nextKey db.workspaces.records

end ODS

namespace ODS

/-- Witness for the amended C2 at a concrete well-stamped database. -/
theorem c2_export_import_roundtrip_witness :
    (exportData 10 c2wdb).1.success = true ∧
    (importData (buildBackupDoc 10 c2wdb) ("f.json") ⟨true, true⟩ 11 12 themeEnv0
        ((exportData 10 c2wdb).2)).1
      = ImportOutcome.success
          ⟨c2wdb.themes.records.length, c2wdb.operations.records.length,
           c2wdb.workspaces.records.length⟩ ∧
    ((importData (buildBackupDoc 10 c2wdb) ("f.json") ⟨true, true⟩ 11 12 themeEnv0
        ((exportData 10 c2wdb).2)).2.1).themes.records = c2wdb.themes.records ∧
    (((importData (buildBackupDoc 10 c2wdb) ("f.json") ⟨true, true⟩ 11 12 themeEnv0
        ((exportData 10 c2wdb).2)).2.1).operations.records).map (fun r => removeField r ("id"))
      = c2wdb.operations.records.map (fun r => removeField r ("id")) ∧
    (((importData (buildBackupDoc 10 c2wdb) ("f.json") ⟨true, true⟩ 11 12 themeEnv0
        ((exportData 10 c2wdb).2)).2.1).workspaces.records).map (fun r => removeField r ("id"))
      = c2wdb.workspaces.records.map (fun r => removeField r ("id")) :=
  c2_export_import_roundtrip c2wdb ("f.json") 10 11 12 themeEnv0 (by decide) (by decide)
    rfl rfl (by decide) (by decide) rfl rfl rfl rfl rfl rfl

end ODS
